import Mathlib

/-!
A shallow embedding of restful-ethereum-validator.

The Go packages `beaconclient`, `service` and `server` are embedded as pure
Lean functions.  Mutable state (the two LRU caches of the service) is passed
explicitly; every call to an upstream collaborator (beacon API, execution
client) is appended to a chronological call record so that "no upstream call
was made" is a statement about that record.  Upstream collaborators are
arbitrary functions of the call record so far and of their arguments, so their
answers may change over time.

Machine integers are `Nat` / `Int` with explicit reduction modulo `2 ^ 64`;
the Go type `int` is taken to be 64 bits wide.  A Go `(value, error)` pair is a
Lean pair whose second component is `Option GoError` (`none` is `nil`);
pointers that may be `nil` are `Option`s.  The `context.Context` argument and
the logger are not modelled.
-/

set_option linter.dupNamespace false

/-- A Go `error` value.  `lib` is an error handed in by library code outside the
repository (net/http, encoding/json, strconv, ethclient), `errorf` is the result
of `fmt.Errorf` with a plain format, `wrapf` the result of `fmt.Errorf` with a
trailing `%w` verb. -/
inductive GoError where
  | lib (msg : String)
  | errorf (msg : String)
  | wrapf (context : String) (cause : GoError)
deriving DecidableEq, Repr

/-- Result of running a Go function body: it returns, or it panics. -/
inductive Outcome (α : Type) where
  | ret (a : α)
  | panic (msg : String)
deriving DecidableEq, Repr

/-- The message of the runtime panic raised by dereferencing a nil pointer. -/
def nilDeref : String := "runtime error: invalid memory address or nil pointer dereference"

/-- The conversion `int(x)` of a `uint64` value: reinterpretation as a signed
64-bit integer. -/
def int (x : Nat) : Int :=
  if x % 2 ^ 64 < 2 ^ 63 then ((x % 2 ^ 64 : Nat) : Int) else ((x % 2 ^ 64 : Nat) : Int) - 2 ^ 64

/-- The conversion `uint64(i)` of an `int` value. -/
def uint64 (i : Int) : Nat := (i % 2 ^ 64).toNat

namespace strconv

/-- Value of an ASCII decimal digit, `none` for any other character. -/
def digitVal (c : Char) : Option Nat :=
  if '0' ≤ c ∧ c ≤ '9' then some (c.toNat - '0'.toNat) else none

/-- Left-to-right accumulation of decimal digits; `none` on a non-digit. -/
def parseDigits : List Char → Nat → Option Nat
  | [], acc => some acc
  | c :: cs, acc =>
    match digitVal c with
    | some d => parseDigits cs (acc * 10 + d)
    | none => none

/-- The call `strconv.ParseUint(s, 10, 64)`: the whole string must be a
non-empty run of decimal digits (no sign, no underscore) and its value must fit
in 64 bits. -/
def ParseUint (s : String) : Nat × Option GoError :=
  match s.data with
  | [] => (0, some (.lib "strconv.ParseUint: invalid syntax"))
  | cs =>
    match parseDigits cs 0 with
    | none => (0, some (.lib "strconv.ParseUint: invalid syntax"))
    | some n =>
      if n < 2 ^ 64 then (n, none)
      else (2 ^ 64 - 1, some (.lib "strconv.ParseUint: value out of range"))

/-- The call `strconv.Atoi(s)`: an optional sign followed by a non-empty run of
decimal digits, whose value must fit in a signed 64-bit integer. -/
def Atoi (s : String) : Int × Option GoError :=
  let signed (neg : Bool) (cs : List Char) : Int × Option GoError :=
    match cs with
    | [] => (0, some (.lib "strconv.Atoi: invalid syntax"))
    | _ =>
      match parseDigits cs 0 with
      | none => (0, some (.lib "strconv.Atoi: invalid syntax"))
      | some n =>
        if neg then
          if n ≤ 2 ^ 63 then (-(n : Int), none)
          else (-(2 ^ 63 : Int), some (.lib "strconv.Atoi: value out of range"))
        else
          if n < 2 ^ 63 then ((n : Int), none)
          else ((2 ^ 63 - 1 : Int), some (.lib "strconv.Atoi: value out of range"))
  match s.data with
  | '-' :: cs => signed true cs
  | '+' :: cs => signed false cs
  | cs => signed false cs

/-- Decimal digits of a natural number, most significant first; the first
argument bounds the number of digits produced. -/
def digits : Nat → Nat → List Char
  | 0, _ => []
  | fuel + 1, n =>
    if n < 10 then [Char.ofNat (48 + n)]
    else digits fuel (n / 10) ++ [Char.ofNat (48 + n % 10)]

/-- The call `strconv.FormatUint(n, 10)`, also what the verb `%d` prints for an
unsigned operand. -/
def FormatUint (n : Nat) : String := String.mk (digits (n + 1) n)

/-- The call `strconv.Itoa(i)`. -/
def Itoa (i : Int) : String :=
  if i < 0 then String.mk ('-' :: digits (i.natAbs + 1) i.natAbs)
  else String.mk (digits (i.toNat + 1) i.toNat)

end strconv

/-- An execution-layer account address as produced by `common.HexToAddress`. -/
abbrev Address := List Nat

namespace beaconclient

structure BlockRewardData where
  ProposerIndex : String
  Total : String
  Attestations : String
  SyncAggregate : String
  ProposerSlashings : String
  AttesterSlashings : String
deriving DecidableEq, Repr

structure BlockRewardResponse where
  ExecutionOptimistic : Bool
  Finalized : Bool
  Data : BlockRewardData
deriving DecidableEq, Repr

structure SyncCommitteeReward where
  ValidatorIndex : String
  Reward : String
deriving DecidableEq, Repr

structure RewardsResponse where
  ExecutionOptimistic : Bool
  Finalized : Bool
  Data : List SyncCommitteeReward
deriving DecidableEq, Repr

structure ValidatorInformation where
  PubKey : String
  WithdrawalCredentials : String
  EffectiveBalance : String
  Slashed : Bool
  ActivationEligibilityEpoch : String
  ActivationEpoch : String
  ExitEpoch : String
  WithdrawableEpoch : String
deriving DecidableEq, Repr

structure Validator where
  Index : String
  Balance : String
  Status : String
  ValidatorInformation : ValidatorInformation
deriving DecidableEq, Repr

structure ValidatorResponse where
  ExecutionOptimistic : Bool
  Finalized : Bool
  Data : List Validator
deriving DecidableEq, Repr

/-- The `execution_payload` object of a block body; of its fields the service
reads `FeeRecipient`, the list-valued fields are left out. -/
structure ExecutionPayload where
  ParentHash : String
  FeeRecipient : String
  StateRoot : String
  BlockNumber : String
  BlockHash : String
deriving DecidableEq, Repr

/-- The `body` object of a block message, restricted to the scalar fields and
the execution payload. -/
structure BlockBody where
  RandaoReveal : String
  Graffiti : String
  ExecutionPayload : ExecutionPayload
deriving DecidableEq, Repr

structure BlockMessage where
  Slot : String
  ProposerIndex : String
  ParentRoot : String
  StateRoot : String
  Body : BlockBody
deriving DecidableEq, Repr

structure BlockData where
  Message : BlockMessage
  Signature : String
deriving DecidableEq, Repr

structure BeaconBlockResponse where
  Version : String
  ExecutionOptimistic : Bool
  Finalized : Bool
  Data : BlockData
deriving DecidableEq, Repr

end beaconclient

/-- One call to an upstream collaborator: the four methods of
`beaconclient.Client` and `ethclient.Client.CodeAt` (always with a nil block
number). -/
inductive Call where
  | GetSyncCommitteeRewards (slot : Nat)
  | GetValidatorsByStatus (slot : Nat) (ids : List String) (statuses : List String)
  | GetBlockRewardInfo (slot : Nat)
  | GetBeaconBlockInfo (slot : String)
  | CodeAt (account : Address)
deriving DecidableEq, Repr

namespace beaconclient

/-- The interface `beaconclient.Client`.  Each method receives the record of
the upstream calls made before it, so an implementation may answer differently
over time. -/
structure Client where
  GetSyncCommitteeRewards : List Call → Nat → List SyncCommitteeReward × Option GoError
  GetValidatorsByStatus :
    List Call → Nat → List String → List String → List Validator × Option GoError
  GetBlockRewardInfo : List Call → Nat → Option BlockRewardResponse × Option GoError
  GetBeaconBlockInfo : List Call → String → Option BeaconBlockResponse × Option GoError

end beaconclient

/-- The surface of go-ethereum used by the service: the pure conversion
`common.HexToAddress` and the query `ethclient.Client.CodeAt` (byte sequence
and error). -/
structure EthClient where
  HexToAddress : String → Address
  CodeAt : List Call → Address → List Nat × Option GoError

namespace lru

/-- Modelled from the spec: the container `lru.Cache` of go-ethereum
(`common/lru`), whose source is not part of the repository.  It is "a bounded,
least-recently-used eviction container with a fixed capacity": `items` lists
the entries from most recently used to least recently used, and `cap` is the
capacity fixed at construction. -/
structure Cache (K V : Type) where
  cap : Nat
  items : List (K × V)

/-- Modelled from the spec: `lru.NewCache(capacity)`, an empty container of the
given fixed capacity (the library raises a capacity below one to one). -/
def NewCache {K V : Type} (capacity : Int) : Cache K V :=
  { cap := if capacity ≤ 0 then 1 else capacity.toNat, items := [] }

/-- Number of entries held. -/
def Cache.Len {K V : Type} (c : Cache K V) : Nat := c.items.length

/-- The keys held, most recently used first. -/
def Cache.Keys {K V : Type} (c : Cache K V) : List K := c.items.map Prod.fst

/-- Lookup without any effect on recency. -/
def Cache.Peek {K V : Type} [DecidableEq K] (c : Cache K V) (key : K) : Option V :=
  c.items.lookup key

/-- Membership test without any effect on recency. -/
def Cache.Contains {K V : Type} [DecidableEq K] (c : Cache K V) (key : K) : Bool :=
  (c.Peek key).isSome

/-- Modelled from the spec: `Get` reads an entry; a hit counts as a use and
makes the entry the most recently used one, a miss changes nothing. -/
def Cache.Get {K V : Type} [DecidableEq K] (c : Cache K V) (key : K) : Option V × Cache K V :=
  match c.items.lookup key with
  | some v => (some v, { c with items := (key, v) :: c.items.filter (fun e => e.1 ≠ key) })
  | none => (none, c)

/-- Modelled from the spec: `Add` stores an entry as the most recently used
one.  A key already present keeps its place in the container and only its
value and recency change; otherwise, when the container is full, the least
recently used entry is evicted to make room. -/
def Cache.Add {K V : Type} [DecidableEq K] (c : Cache K V) (key : K) (value : V) : Cache K V :=
  match c.items.lookup key with
  | some _ => { c with items := (key, value) :: c.items.filter (fun e => e.1 ≠ key) }
  | none =>
    if c.items.length ≥ c.cap then { c with items := (key, value) :: c.items.dropLast }
    else { c with items := (key, value) :: c.items }

/-- The order invariant of a cache with respect to a use history `uses` (most
recent first): the keys held are listed by strictly increasing position of
their last use, every key held has been used, and the capacity is respected. -/
def Cache.Ordered {K V : Type} [DecidableEq K] (c : Cache K V) (uses : List K) : Prop :=
  c.Keys.Pairwise (fun a b => uses.indexOf a < uses.indexOf b) ∧
  (∀ k ∈ c.Keys, k ∈ uses) ∧ c.Len ≤ c.cap

end lru

namespace service

structure Reward where
  Status : String
  Reward : String
deriving DecidableEq, Repr

/-- The struct `ethereumService`: the two clients, the two caches, and the
record `calls` of the upstream calls made so far (oldest first). -/
structure ethereumService where
  client : EthClient
  beaconClient : beaconclient.Client
  rewardCache : lru.Cache Nat Reward
  dutiesCache : lru.Cache Nat (List String)
  calls : List Call

def NewEthereumService (beaconClient : beaconclient.Client) (client : EthClient) :
    ethereumService :=
  { client := client
    beaconClient := beaconClient
    rewardCache := lru.NewCache 100
    dutiesCache := lru.NewCache 100
    calls := [] }

/-- The error built by `fmt.Errorf("block not found for slot %d", slot)`. -/
def blockNotFound (slot : Nat) : GoError :=
  .errorf ("block not found for slot " ++ strconv.FormatUint slot)

def ethereumService.GetCurrentSlot (s : ethereumService) :
    (Nat × Option GoError) × ethereumService :=
  let (block, err) := s.beaconClient.GetBeaconBlockInfo s.calls "head"
  let s := { s with calls := s.calls ++ [Call.GetBeaconBlockInfo "head"] }
  match err with
  | some e => ((0, some e), s)
  | none =>
    match block with
    | none => ((0, err), s)
    | some block =>
      let (slot, err) := strconv.ParseUint block.Data.Message.Slot
      match err with
      | some e => ((0, some e), s)
      | none => ((slot, none), s)

def ethereumService.GetBlockReward (s : ethereumService) (slot : Nat) :
    Outcome (String × String × Option GoError) × ethereumService :=
  match s.rewardCache.Get slot with
  | (some reward, cache) =>
    (.ret (reward.Status, reward.Reward, none), { s with rewardCache := cache })
  | (none, _) =>
    let (block, err) := s.beaconClient.GetBeaconBlockInfo s.calls (strconv.Itoa (int slot))
    let s := { s with calls := s.calls ++ [Call.GetBeaconBlockInfo (strconv.Itoa (int slot))] }
    match err with
    | some e => (.ret ("", "", some e), s)
    | none =>
      match block with
      | none => (.ret ("", "", some (blockNotFound slot)), s)
      | some block =>
        let (blockRewardInfo, err) := s.beaconClient.GetBlockRewardInfo s.calls slot
        let s := { s with calls := s.calls ++ [Call.GetBlockRewardInfo slot] }
        match err with
        | some e => (.ret ("", "", some e), s)
        | none =>
          let feeRecipient := block.Data.Message.Body.ExecutionPayload.FeeRecipient
          let (code, err) := s.client.CodeAt s.calls (s.client.HexToAddress feeRecipient)
          let s := { s with calls := s.calls ++ [Call.CodeAt (s.client.HexToAddress feeRecipient)] }
          match err with
          | some e => (.ret ("", "", some e), s)
          | none =>
            let rewardStatus := if code.length = 0 then "MEV" else "Vanilla"
            match blockRewardInfo with
            | none => (.panic nilDeref, s)
            | some info =>
              (.ret (rewardStatus, info.Data.Total, none),
                { s with rewardCache :=
                    s.rewardCache.Add slot { Status := rewardStatus, Reward := info.Data.Total } })

def ethereumService.GetSyncDuties (s : ethereumService) (slot : Nat) :
    (List String × Option GoError) × ethereumService :=
  match s.dutiesCache.Get slot with
  | (some duties, cache) => ((duties, none), { s with dutiesCache := cache })
  | (none, _) =>
    let (block, err) := s.beaconClient.GetBeaconBlockInfo s.calls (strconv.Itoa (int slot))
    let s := { s with calls := s.calls ++ [Call.GetBeaconBlockInfo (strconv.Itoa (int slot))] }
    match err with
    | some e => (([], some e), s)
    | none =>
      match block with
      | none => (([], some (blockNotFound slot)), s)
      | some _ =>
        let (syncComiteeRewards, err) := s.beaconClient.GetSyncCommitteeRewards s.calls slot
        let s := { s with calls := s.calls ++ [Call.GetSyncCommitteeRewards slot] }
        match err with
        | some e => (([], some e), s)
        | none =>
          let validatorIndexes := syncComiteeRewards.map (fun reward => reward.ValidatorIndex)
          let (vs, err) :=
            s.beaconClient.GetValidatorsByStatus s.calls slot validatorIndexes ["active_ongoing"]
          let s := { s with calls :=
            s.calls ++ [Call.GetValidatorsByStatus slot validatorIndexes ["active_ongoing"]] }
          match err with
          | some e => (([], some e), s)
          | none =>
            let validatorsPubKeys := vs.map (fun v => v.ValidatorInformation.PubKey)
            ((validatorsPubKeys, none),
              { s with dutiesCache := s.dutiesCache.Add slot validatorsPubKeys })

end service

namespace beaconclient

/-- An outgoing HTTP request as assembled by the client: method, URL, body and
the headers set on it (keys in canonical form). -/
structure HttpRequest where
  Method : String
  URL : String
  Body : Option String
  Header : List (String × String)
deriving DecidableEq, Repr

/-- An HTTP response: status code and body. -/
structure HttpResponse where
  StatusCode : Nat
  Body : String
deriving DecidableEq, Repr

/-- The surface of `net/http` and `encoding/json` used by the concrete client:
`http.NewRequest` (only its error), `http.Client.Do` (a response or an error,
possibly depending on the calls made before), `json.Marshal` of the request
payload and `json.Decoder.Decode` into each of the four response types (the
decoded value and the error). -/
structure Http where
  NewRequest : String → String → Option String → Option GoError
  Do : List Call → HttpRequest → Except GoError HttpResponse
  Marshal : List String → List String → String × Option GoError
  DecodeRewards : String → RewardsResponse × Option GoError
  DecodeValidators : String → ValidatorResponse × Option GoError
  DecodeBlockReward : String → BlockRewardResponse × Option GoError
  DecodeBeaconBlock : String → BeaconBlockResponse × Option GoError

structure beaconClient where
  baseURL : String
  client : Http

def beaconClient.GetSyncCommitteeRewards (vc : beaconClient) (calls : List Call) (slot : Nat) :
    List SyncCommitteeReward × Option GoError :=
  let url := vc.baseURL ++ "/eth/v1/beacon/rewards/sync_committee/" ++ strconv.FormatUint slot
  let reqBody := "[]"
  match vc.client.NewRequest "POST" url (some reqBody) with
  | some err => ([], some (.wrapf "error creating request" err))
  | none =>
    let req : HttpRequest :=
      { Method := "POST", URL := url, Body := some reqBody
        Header := [("Accept", "application/json"), ("Content-Type", "application/json")] }
    match vc.client.Do calls req with
    | .error err => ([], some (.wrapf "error sending request" err))
    | .ok resp =>
      let (rewardsResponse, err) := vc.client.DecodeRewards resp.Body
      match err with
      | some err => ([], some (.wrapf "error decoding response" err))
      | none => (rewardsResponse.Data, none)

def beaconClient.GetValidatorsByStatus (vc : beaconClient) (calls : List Call) (slot : Nat)
    (ids : List String) (statuses : List String) : List Validator × Option GoError :=
  let url := vc.baseURL ++ "/eth/v1/beacon/states/" ++ strconv.FormatUint slot ++ "/validators"
  let (jsonPayload, err) := vc.client.Marshal ids statuses
  match err with
  | some err => ([], some (.wrapf "error marshalling payload" err))
  | none =>
    match vc.client.NewRequest "POST" url (some jsonPayload) with
    | some err => ([], some (.wrapf "error creating request" err))
    | none =>
      let req : HttpRequest :=
        { Method := "POST", URL := url, Body := some jsonPayload
          Header := [("Accept", "application/json"), ("Content-Type", "application/json")] }
      match vc.client.Do calls req with
      | .error err => ([], some (.wrapf "error sending request" err))
      | .ok resp =>
        let (validatorResponse, err) := vc.client.DecodeValidators resp.Body
        match err with
        | some err => ([], some (.wrapf "error decoding response" err))
        | none => (validatorResponse.Data, none)

def beaconClient.GetBlockRewardInfo (vc : beaconClient) (calls : List Call) (slot : Nat) :
    Option BlockRewardResponse × Option GoError :=
  let url := vc.baseURL ++ "/eth/v1/beacon/rewards/blocks/" ++ strconv.FormatUint slot
  match vc.client.NewRequest "GET" url none with
  | some err => (none, some (.wrapf "error creating request" err))
  | none =>
    let req : HttpRequest :=
      { Method := "GET", URL := url, Body := none, Header := [("Accept", "application/json")] }
    match vc.client.Do calls req with
    | .error err => (none, some (.wrapf "error sending request" err))
    | .ok resp =>
      let (blockRewardResponse, err) := vc.client.DecodeBlockReward resp.Body
      match err with
      | some err => (none, some (.wrapf "error decoding response" err))
      | none => (some blockRewardResponse, none)

def beaconClient.GetBeaconBlockInfo (vc : beaconClient) (calls : List Call) (slot : String) :
    Option BeaconBlockResponse × Option GoError :=
  let url := vc.baseURL ++ "/eth/v2/beacon/blocks/" ++ slot
  match vc.client.NewRequest "GET" url none with
  | some err => (none, some (.wrapf "error creating request" err))
  | none =>
    let req : HttpRequest :=
      { Method := "GET", URL := url, Body := none, Header := [("Accept", "application/json")] }
    match vc.client.Do calls req with
    | .error err => (none, some (.wrapf "error sending request" err))
    | .ok resp =>
      let (beaconBlockResponse, err) := vc.client.DecodeBeaconBlock resp.Body
      match err with
      | some err => (none, some (.wrapf "error decoding response" err))
      | none => (some beaconBlockResponse, none)

/-- The constructor `NewBeaconClient`: the struct seen through the interface
`Client`.  The `http.Client` it allocates is the parameter `http`. -/
def NewBeaconClient (http : Http) (baseURL : String) : Client :=
  let vc : beaconClient := { baseURL := baseURL, client := http }
  { GetSyncCommitteeRewards := vc.GetSyncCommitteeRewards
    GetValidatorsByStatus := vc.GetValidatorsByStatus
    GetBlockRewardInfo := vc.GetBlockRewardInfo
    GetBeaconBlockInfo := vc.GetBeaconBlockInfo }

end beaconclient

namespace service

/-- The interface `EthereumService` over a state of type `σ`; a method returns
or panics. -/
structure EthereumService (σ : Type) where
  GetCurrentSlot : σ → Outcome (Nat × Option GoError) × σ
  GetBlockReward : σ → Nat → Outcome (String × String × Option GoError) × σ
  GetSyncDuties : σ → Nat → Outcome (List String × Option GoError) × σ

/-- The struct `ethereumService` seen through the interface `EthereumService`. -/
def ethereumService.asInterface : EthereumService ethereumService :=
  { GetCurrentSlot := fun s => ((s.GetCurrentSlot).1 |> Outcome.ret, (s.GetCurrentSlot).2)
    GetBlockReward := fun s slot => s.GetBlockReward slot
    GetSyncDuties := fun s slot =>
      ((s.GetSyncDuties slot).1 |> Outcome.ret, (s.GetSyncDuties slot).2) }

end service

namespace server

/-- One invocation of a method of `service.EthereumService` by a handler. -/
inductive ServiceCall where
  | GetCurrentSlot
  | GetBlockReward (slot : Nat)
  | GetSyncDuties (slot : Nat)
deriving DecidableEq, Repr

/-- The JSON object written by `c.JSON`. -/
inductive Body where
  | error (msg : String)
  | reward (status : String) (reward : String)
  | validators (validators : List String)
deriving DecidableEq, Repr

/-- What a handler writes: HTTP status code and JSON body. -/
structure Response where
  status : Nat
  body : Body
deriving DecidableEq, Repr

structure APIHandler (σ : Type) where
  ethereumService : service.EthereumService σ

def NewAPIHandler {σ : Type} (ethereumService : service.EthereumService σ) : APIHandler σ :=
  { ethereumService := ethereumService }

/-- The handler of `GET /blockreward/:slot`, applied to the path parameter.
It yields the response (or the panic it lets through), the state of the
service afterwards, and the service methods it invoked, in order. -/
def APIHandler.GetBlockReward {σ : Type} (h : APIHandler σ) (st : σ) (slotStr : String) :
    Outcome Response × σ × List ServiceCall :=
  let (slot, err) := strconv.Atoi slotStr
  match err with
  | some _ => (.ret ⟨400, .error "Invalid slot number"⟩, st, [])
  | none =>
    match h.ethereumService.GetCurrentSlot st with
    | (.panic msg, st) => (.panic msg, st, [.GetCurrentSlot])
    | (.ret (currentSlot, err), st) =>
      match err with
      | some _ => (.ret ⟨500, .error "Failed to get current slot"⟩, st, [.GetCurrentSlot])
      | none =>
        if slot > int currentSlot then
          (.ret ⟨400, .error "Requested slot is in the future"⟩, st, [.GetCurrentSlot])
        else
          match h.ethereumService.GetBlockReward st (uint64 slot) with
          | (.panic msg, st) => (.panic msg, st, [.GetCurrentSlot, .GetBlockReward (uint64 slot)])
          | (.ret (rewardStatus, rewardAmount, err), st) =>
            match err with
            | some _ =>
              (.ret ⟨500, .error "Failed to get block reward"⟩, st,
                [.GetCurrentSlot, .GetBlockReward (uint64 slot)])
            | none =>
              (.ret ⟨200, .reward rewardStatus rewardAmount⟩, st,
                [.GetCurrentSlot, .GetBlockReward (uint64 slot)])

/-- The handler of `GET /syncduties/:slot`, applied to the path parameter. -/
def APIHandler.GetSyncDuties {σ : Type} (h : APIHandler σ) (st : σ) (slotStr : String) :
    Outcome Response × σ × List ServiceCall :=
  let (slot, err) := strconv.Atoi slotStr
  match err with
  | some _ => (.ret ⟨400, .error "Invalid slot number"⟩, st, [])
  | none =>
    match h.ethereumService.GetCurrentSlot st with
    | (.panic msg, st) => (.panic msg, st, [.GetCurrentSlot])
    | (.ret (currentSlot, err), st) =>
      match err with
      | some _ => (.ret ⟨500, .error "Failed to get current slot"⟩, st, [.GetCurrentSlot])
      | none =>
        if slot > int currentSlot then
          (.ret ⟨400, .error "Requested slot is in the future"⟩, st, [.GetCurrentSlot])
        else
          match h.ethereumService.GetSyncDuties st (uint64 slot) with
          | (.panic msg, st) => (.panic msg, st, [.GetCurrentSlot, .GetSyncDuties (uint64 slot)])
          | (.ret (syncDuties, err), st) =>
            match err with
            | some _ =>
              (.ret ⟨500, .error "Failed to get sync duties"⟩, st,
                [.GetCurrentSlot, .GetSyncDuties (uint64 slot)])
            | none =>
              (.ret ⟨200, .validators syncDuties⟩, st,
                [.GetCurrentSlot, .GetSyncDuties (uint64 slot)])

end server

namespace service

/-- One operation of the service, as invoked by a caller. -/
inductive Op where
  | GetCurrentSlot
  | GetBlockReward (slot : Nat)
  | GetSyncDuties (slot : Nat)
deriving DecidableEq, Repr

/-- A service together with the history of its cache uses: `rewardUses`
(respectively `dutiesUses`) lists the slots of the `GetBlockReward`
(respectively `GetSyncDuties`) calls that were served from the cache or stored
a new entry, most recent first. -/
structure Traced where
  s : ethereumService
  rewardUses : List Nat
  dutiesUses : List Nat

/-- Whether a `GetBlockReward` call returned with a nil error. -/
def rewardOK : Outcome (String × String × Option GoError) → Bool
  | .ret (_, _, none) => true
  | _ => false

/-- Run one operation and record the cache use it makes, if any: a call that
returns a nil error was a cache hit or an insertion. -/
def Traced.step (t : Traced) : Op → Traced
  | .GetCurrentSlot => { t with s := (t.s.GetCurrentSlot).2 }
  | .GetBlockReward slot =>
    { t with
      s := (t.s.GetBlockReward slot).2
      rewardUses :=
        if rewardOK (t.s.GetBlockReward slot).1 then slot :: t.rewardUses else t.rewardUses }
  | .GetSyncDuties slot =>
    { t with
      s := (t.s.GetSyncDuties slot).2
      dutiesUses :=
        if (t.s.GetSyncDuties slot).1.2.isNone then slot :: t.dutiesUses else t.dutiesUses }

/-- Run a sequence of operations, oldest first. -/
def ethereumService.run (s : ethereumService) (ops : List Op) : Traced :=
  ops.foldl Traced.step { s := s, rewardUses := [], dutiesUses := [] }

/-- The invariant of a run: both caches have capacity 100 and are ordered by
the recency of their uses. -/
def Traced.Inv (t : Traced) : Prop :=
  t.s.rewardCache.cap = 100 ∧ t.s.dutiesCache.cap = 100 ∧
  t.s.rewardCache.Ordered t.rewardUses ∧ t.s.dutiesCache.Ordered t.dutiesUses

/-- The call `GetBlockReward slot` in state `s` performs the upstream fetches
of a first resolution, none being served from the cache: the block query is
issued; when it yields a block, the block-reward query follows; when that
succeeds too, the code query for the fee recipient of the block follows, and
these three calls are all the calls made. -/
def RewardFetches (s : ethereumService) (slot : Nat) : Prop :=
  (s.calls ++ [Call.GetBeaconBlockInfo (strconv.Itoa (int slot))])
    <+: (s.GetBlockReward slot).2.calls ∧
  (∀ blk, s.beaconClient.GetBeaconBlockInfo s.calls (strconv.Itoa (int slot)) = (some blk, none) →
    (s.calls ++ [Call.GetBeaconBlockInfo (strconv.Itoa (int slot)), Call.GetBlockRewardInfo slot])
      <+: (s.GetBlockReward slot).2.calls) ∧
  (∀ blk info,
    s.beaconClient.GetBeaconBlockInfo s.calls (strconv.Itoa (int slot)) = (some blk, none) →
    s.beaconClient.GetBlockRewardInfo
      (s.calls ++ [Call.GetBeaconBlockInfo (strconv.Itoa (int slot))]) slot = (info, none) →
    (s.GetBlockReward slot).2.calls
      = s.calls ++ [Call.GetBeaconBlockInfo (strconv.Itoa (int slot)),
          Call.GetBlockRewardInfo slot,
          Call.CodeAt (s.client.HexToAddress blk.Data.Message.Body.ExecutionPayload.FeeRecipient)])

/-- The call `GetSyncDuties slot` in state `s` performs the upstream fetches
of a first resolution: the block query is issued; when it yields a block, the
sync-committee reward query follows; when that succeeds too, the validator
query for the listed indices follows, and these three calls are all the calls
made. -/
def DutiesFetches (s : ethereumService) (slot : Nat) : Prop :=
  (s.calls ++ [Call.GetBeaconBlockInfo (strconv.Itoa (int slot))])
    <+: (s.GetSyncDuties slot).2.calls ∧
  (∀ blk, s.beaconClient.GetBeaconBlockInfo s.calls (strconv.Itoa (int slot)) = (some blk, none) →
    (s.calls ++ [Call.GetBeaconBlockInfo (strconv.Itoa (int slot)),
        Call.GetSyncCommitteeRewards slot])
      <+: (s.GetSyncDuties slot).2.calls) ∧
  (∀ blk l,
    s.beaconClient.GetBeaconBlockInfo s.calls (strconv.Itoa (int slot)) = (some blk, none) →
    s.beaconClient.GetSyncCommitteeRewards
      (s.calls ++ [Call.GetBeaconBlockInfo (strconv.Itoa (int slot))]) slot = (l, none) →
    (s.GetSyncDuties slot).2.calls
      = s.calls ++ [Call.GetBeaconBlockInfo (strconv.Itoa (int slot)),
          Call.GetSyncCommitteeRewards slot,
          Call.GetValidatorsByStatus slot (l.map (fun r => r.ValidatorIndex))
            ["active_ongoing"]])

end service

/-! ## Fixtures: concrete collaborators used to instantiate the theorems -/

namespace fixture

open beaconclient

/-- A block summary with the given slot field and fee recipient. -/
def block (slot feeRecipient : String) : BeaconBlockResponse :=
  { Version := "deneb", ExecutionOptimistic := false, Finalized := true
    Data :=
      { Message :=
          { Slot := slot, ProposerIndex := "1", ParentRoot := "0x00", StateRoot := "0x00"
            Body :=
              { RandaoReveal := "0x00", Graffiti := "0x00"
                ExecutionPayload :=
                  { ParentHash := "0x00", FeeRecipient := feeRecipient, StateRoot := "0x00"
                    BlockNumber := "1", BlockHash := "0x00" } } }
        Signature := "0x00" } }

/-- A block-reward breakdown with the given total. -/
def rewardInfo (total : String) : BlockRewardResponse :=
  { ExecutionOptimistic := false, Finalized := true
    Data :=
      { ProposerIndex := "1", Total := total, Attestations := "0", SyncAggregate := "0"
        ProposerSlashings := "0", AttesterSlashings := "0" } }

/-- A validator record with the given index and public key. -/
def validator (index pubKey : String) : Validator :=
  { Index := index, Balance := "32000000000", Status := "active_ongoing"
    ValidatorInformation :=
      { PubKey := pubKey, WithdrawalCredentials := "0x00", EffectiveBalance := "32000000000"
        Slashed := false, ActivationEligibilityEpoch := "0", ActivationEpoch := "0"
        ExitEpoch := "18446744073709551615", WithdrawableEpoch := "18446744073709551615" } }

/-- A beacon node whose head is slot 1000: every slot has a block with fee
recipient `0xabc` and total reward `320000000000000000`; the sync-committee
listing names the indices 5, 7 and 9, of which 5 and 9 are active. -/
def beacon : Client :=
  { GetSyncCommitteeRewards := fun _ _ => ([⟨"5", "10"⟩, ⟨"7", "10"⟩, ⟨"9", "10"⟩], none)
    GetValidatorsByStatus := fun _ _ _ _ => ([validator "5" "0xaa", validator "9" "0xcc"], none)
    GetBlockRewardInfo := fun _ _ => (some (rewardInfo "320000000000000000"), none)
    GetBeaconBlockInfo := fun _ slot =>
      if slot = "head" then (some (block "1000" "0xabc"), none)
      else (some (block slot "0xabc"), none) }

/-- A beacon node that has no block for any identifier and reports no error. -/
def beaconNoBlock : Client :=
  { beacon with GetBeaconBlockInfo := fun _ _ => (none, none) }

/-- An execution client for which no account holds code. -/
def eth : EthClient :=
  { HexToAddress := fun _ => List.replicate 20 0
    CodeAt := fun _ _ => ([], none) }

/-- An execution client for which every account holds the code `0x60 0x80`. -/
def ethContract : EthClient :=
  { HexToAddress := fun _ => List.replicate 20 0
    CodeAt := fun _ _ => ([96, 128], none) }

/-- The zero value of `BeaconBlockResponse`: what decoding a JSON object
without any of the expected members leaves behind. -/
def zeroBlock : BeaconBlockResponse :=
  { Version := "", ExecutionOptimistic := false, Finalized := false
    Data :=
      { Message :=
          { Slot := "", ProposerIndex := "", ParentRoot := "", StateRoot := ""
            Body :=
              { RandaoReveal := "", Graffiti := ""
                ExecutionPayload :=
                  { ParentHash := "", FeeRecipient := "", StateRoot := ""
                    BlockNumber := "", BlockHash := "" } } }
        Signature := "" } }

/-- The zero value of `BlockRewardResponse`. -/
def zeroRewardInfo : BlockRewardResponse :=
  { ExecutionOptimistic := false, Finalized := false
    Data :=
      { ProposerIndex := "", Total := "", Attestations := "", SyncAggregate := ""
        ProposerSlashings := "", AttesterSlashings := "" } }

/-- A beacon node that answers every request with status 404 and the JSON
object of an error message; decoding that object succeeds and fills in none of
the expected members. -/
def http404 : Http :=
  { NewRequest := fun _ _ _ => none
    Do := fun _ _ => .ok { StatusCode := 404, Body := "\x7b\"code\":404,\"message\":\"NOT_FOUND\"\x7d" }
    Marshal := fun _ _ => ("", none)
    DecodeRewards := fun _ => ({ ExecutionOptimistic := false, Finalized := false, Data := [] }, none)
    DecodeValidators := fun _ =>
      ({ ExecutionOptimistic := false, Finalized := false, Data := [] }, none)
    DecodeBlockReward := fun _ => (zeroRewardInfo, none)
    DecodeBeaconBlock := fun _ => (zeroBlock, none) }

/-- A beacon node that cannot be reached. -/
def httpDown : Http :=
  { http404 with Do := fun _ _ => .error (.lib "dial tcp: connection refused") }

/-- A hundred requests for the block rewards of the slots 0 to 99, followed by
a hundred requests for the sync duties of the same slots. -/
def fill : List service.Op :=
  (List.range 100).map service.Op.GetBlockReward ++ (List.range 100).map service.Op.GetSyncDuties

end fixture

/-! ## Lemmas on the cache model -/

namespace lru

theorem Cache.get_of_peek_none {K V : Type} [DecidableEq K] (c : Cache K V) (key : K)
    (h : c.Peek key = none) : c.Get key = (none, c) := by
  unfold Cache.Get
  unfold Cache.Peek at h
  rw [h]

theorem Cache.get_of_peek_some {K V : Type} [DecidableEq K] (c : Cache K V) (key : K) (v : V)
    (h : c.Peek key = some v) :
    c.Get key = (some v, { c with items := (key, v) :: c.items.filter (fun e => e.1 ≠ key) }) := by
  unfold Cache.Get
  unfold Cache.Peek at h
  rw [h]

theorem Cache.peek_of_contains_false {K V : Type} [DecidableEq K] (c : Cache K V) (key : K)
    (h : c.Contains key = false) : c.Peek key = none := by
  unfold Cache.Contains at h
  cases hp : c.Peek key with
  | none => rfl
  | some v => rw [hp] at h; simp at h

theorem Cache.peek_add_self {K V : Type} [DecidableEq K] (c : Cache K V) (key : K) (value : V) :
    (c.Add key value).Peek key = some value := by
  unfold Cache.Add Cache.Peek
  cases c.items.lookup key with
  | some v => simp [List.lookup]
  | none =>
    by_cases hfull : c.items.length ≥ c.cap
    · simp [hfull, List.lookup]
    · simp [hfull, List.lookup]

theorem Cache.ordered_new {K V : Type} [DecidableEq K] (capacity : Int) :
    (NewCache capacity : Cache K V).Ordered [] := by
  simp [Cache.Ordered, NewCache, Cache.Keys, Cache.Len]

theorem Cache.get_hit_eq_add {K V : Type} [DecidableEq K] (c : Cache K V) (key : K) (v : V)
    (h : c.Peek key = some v) : (c.Get key).2 = c.Add key v := by
  unfold Cache.Peek at h
  simp [Cache.Get, Cache.Add, h]

theorem Cache.cap_add {K V : Type} [DecidableEq K] (c : Cache K V) (key : K) (value : V) :
    (c.Add key value).cap = c.cap := by
  unfold Cache.Add
  split
  · rfl
  · split <;> rfl

theorem Cache.not_mem_keys_of_peek_none {K V : Type} [DecidableEq K] (c : Cache K V) (key : K)
    (h : c.Peek key = none) : key ∉ c.Keys := by
  unfold Cache.Peek at h
  rw [List.lookup_eq_none_iff] at h
  intro hk
  simp only [Cache.Keys, List.mem_map] at hk
  obtain ⟨p, hp, hpk⟩ := hk
  have := h p hp
  simp [hpk] at this

theorem Cache.mem_keys_of_peek_some {K V : Type} [DecidableEq K] (c : Cache K V) (key : K) (v : V)
    (h : c.Peek key = some v) : key ∈ c.Keys := by
  by_contra hk
  have : c.Peek key = none := by
    unfold Cache.Peek
    rw [List.lookup_eq_none_iff]
    intro p hp
    rw [bne_iff_ne]
    intro hpk
    exact hk (by simp only [Cache.Keys, List.mem_map]; exact ⟨p, hp, hpk.symm⟩)
  rw [this] at h
  simp at h

/-- The shape of the keys after `Add`: the added key in front of a sublist of
the old keys that does not contain it. -/
theorem Cache.keys_add {K V : Type} [DecidableEq K] (c : Cache K V) (key : K) (value : V) :
    ∃ rest, (c.Add key value).Keys = key :: rest ∧ rest.Sublist c.Keys ∧ ∀ k ∈ rest, k ≠ key := by
  unfold Cache.Add
  cases hl : c.items.lookup key with
  | some v =>
    refine ⟨(c.items.filter (fun e => e.1 ≠ key)).map Prod.fst, by simp [Cache.Keys], ?_, ?_⟩
    · exact (List.filter_sublist _).map _
    · intro k hk
      simp only [List.mem_map, List.mem_filter] at hk
      obtain ⟨p, ⟨_, hp⟩, rfl⟩ := hk
      simpa using hp
  | none =>
    have hnot := Cache.not_mem_keys_of_peek_none c key hl
    by_cases hfull : c.items.length ≥ c.cap
    · refine ⟨c.items.dropLast.map Prod.fst, by simp [Cache.Keys, hfull], ?_, ?_⟩
      · exact (List.dropLast_sublist _).map _
      · intro k hk hkk
        subst hkk
        exact hnot (((List.dropLast_sublist _).map _).subset hk)
    · refine ⟨c.items.map Prod.fst, by simp [Cache.Keys, hfull], List.Sublist.refl _, ?_⟩
      intro k hk hkk
      subst hkk
      exact hnot hk

theorem Cache.len_add_le {K V : Type} [DecidableEq K] (c : Cache K V) (key : K) (value : V)
    (hcap : 0 < c.cap) (hlen : c.Len ≤ c.cap) : (c.Add key value).Len ≤ c.cap := by
  unfold Cache.Len at *
  unfold Cache.Add
  cases hl : c.items.lookup key with
  | some v =>
    have hmem := Cache.mem_keys_of_peek_some c key v hl
    simp only [Cache.Keys, List.mem_map] at hmem
    obtain ⟨p, hp, hpk⟩ := hmem
    have hlt : (c.items.filter (fun e => e.1 ≠ key)).length < c.items.length := by
      rw [List.length_filter_lt_length_iff_exists]
      exact ⟨p, hp, by simp [hpk]⟩
    simp only [List.length_cons]
    omega
  | none =>
    by_cases hfull : c.items.length ≥ c.cap
    · simp only [hfull, ↓reduceIte, List.length_cons, List.length_dropLast]
      omega
    · simp only [hfull, ↓reduceIte, List.length_cons]
      omega

theorem Cache.ordered_add {K V : Type} [DecidableEq K] (c : Cache K V) (uses : List K)
    (key : K) (value : V) (hcap : 0 < c.cap) (h : c.Ordered uses) :
    (c.Add key value).Ordered (key :: uses) := by
  obtain ⟨hpw, hmem, hlen⟩ := h
  obtain ⟨rest, hkeys, hsub, hne⟩ := Cache.keys_add c key value
  refine ⟨?_, ?_, ?_⟩
  · rw [hkeys, List.pairwise_cons]
    constructor
    · intro k hk
      rw [List.indexOf_cons_self, List.indexOf_cons_ne _ (Ne.symm (hne k hk))]
      exact Nat.succ_pos _
    · refine (hpw.sublist hsub).imp_of_mem ?_
      intro a b ha hb hab
      rw [List.indexOf_cons_ne _ (Ne.symm (hne a ha)), List.indexOf_cons_ne _ (Ne.symm (hne b hb))]
      exact Nat.succ_lt_succ hab
  · intro k hk
    rw [hkeys] at hk
    rcases List.mem_cons.mp hk with rfl | hk
    · exact List.mem_cons_self _ _
    · exact List.mem_cons_of_mem _ (hmem k (hsub.subset hk))
  · rw [Cache.cap_add]
    exact Cache.len_add_le c key value hcap hlen

theorem Cache.Ordered.nodup {K V : Type} [DecidableEq K] {c : Cache K V} {uses : List K}
    (h : c.Ordered uses) : c.Keys.Nodup := by
  exact h.1.imp (fun hab heq => by subst heq; exact Nat.lt_irrefl _ hab)

/-- What `Add` of a new key does to a full cache whose keys are ordered by
recency: the last entry is dropped, it is the one used least recently, and all
other entries stay. -/
theorem Cache.add_full {K V : Type} [DecidableEq K] (c : Cache K V) (uses : List K)
    (key : K) (value : V) (hcap : 0 < c.cap) (h : c.Ordered uses)
    (hmiss : c.Peek key = none) (hfull : c.Len = c.cap) :
    ∃ e, c.Keys.getLast? = some e ∧
      (∀ k ∈ c.Keys, k ≠ e → uses.indexOf k < uses.indexOf e) ∧
      (c.Add key value).items = (key, value) :: c.items.dropLast ∧
      (c.Add key value).Peek e = none ∧
      (∀ k, k ≠ e → k ≠ key → (c.Add key value).Peek k = c.Peek k) := by
  have hne : c.items ≠ [] := by
    intro h0
    simp [Cache.Len, h0] at hfull
    omega
  have hnodup := h.nodup
  obtain ⟨hpw, -, -⟩ := h
  have hsplit := List.dropLast_append_getLast hne
  generalize hlast : c.items.getLast hne = last at hsplit
  obtain ⟨e, ve⟩ := last
  have hkeys : c.Keys = c.items.dropLast.map Prod.fst ++ [e] := by
    unfold Cache.Keys
    conv_lhs => rw [← hsplit]
    simp
  have hadd : (c.Add key value).items = (key, value) :: c.items.dropLast := by
    unfold Cache.Peek at hmiss
    unfold Cache.Len at hfull
    simp [Cache.Add, hmiss, hfull]
  have hkey_not := Cache.not_mem_keys_of_peek_none c key hmiss
  have he_mem : e ∈ c.Keys := by rw [hkeys]; simp
  have hke : key ≠ e := fun hk => hkey_not (hk ▸ he_mem)
  rw [hkeys] at hnodup hpw
  have he_not : e ∉ c.items.dropLast.map Prod.fst := by
    intro hmem
    have := (List.nodup_append.mp hnodup).2.2
    exact this hmem (List.mem_singleton_self e)
  have hlook_e : c.items.dropLast.lookup e = none := by
    rw [List.lookup_eq_none_iff]
    intro p hp
    rw [bne_iff_ne]
    intro hpe
    exact he_not (List.mem_map.mpr ⟨p, hp, hpe.symm⟩)
  refine ⟨e, by rw [hkeys]; simp, ?_, hadd, ?_, ?_⟩
  · intro k hk hkne
    rw [hkeys] at hk
    rcases List.mem_append.mp hk with hk | hk
    · exact (List.pairwise_append.mp hpw).2.2 k hk e (List.mem_singleton_self e)
    · exact absurd (List.mem_singleton.mp hk) hkne
  · unfold Cache.Peek
    rw [hadd, List.lookup_cons]
    have : (e == key) = false := by simpa using Ne.symm hke
    rw [this]
    exact hlook_e
  · intro k hk1 hk2
    unfold Cache.Peek
    rw [hadd, List.lookup_cons]
    have h1 : (k == key) = false := by simpa using hk2
    rw [h1]
    conv_rhs => rw [← hsplit]
    rw [List.lookup_append]
    have h2 : (k == e) = false := by simpa using hk1
    simp [List.lookup_cons, h2]

theorem Cache.add_not_full {K V : Type} [DecidableEq K] (c : Cache K V) (key : K) (value : V)
    (hmiss : c.Peek key = none) (hlen : c.Len < c.cap) :
    (c.Add key value).items = (key, value) :: c.items := by
  unfold Cache.Peek at hmiss
  unfold Cache.Len at hlen
  have hnot : ¬ c.items.length ≥ c.cap := by omega
  simp [Cache.Add, hmiss, hnot]

theorem Cache.add_present {K V : Type} [DecidableEq K] (c : Cache K V) (key : K) (v value : V)
    (hhit : c.Peek key = some v) :
    (c.Add key value).items = (key, value) :: c.items.filter (fun e => e.1 ≠ key) := by
  unfold Cache.Peek at hhit
  simp [Cache.Add, hhit]

end lru

/-! ## Lemmas on the service operations -/

namespace service

theorem GetBlockReward_hit (s : ethereumService) (slot : Nat) (v : Reward)
    (h : s.rewardCache.Peek slot = some v) :
    s.GetBlockReward slot
      = (Outcome.ret (v.Status, v.Reward, none),
          { s with rewardCache := (s.rewardCache.Get slot).2 }) := by
  simp [ethereumService.GetBlockReward, lru.Cache.get_of_peek_some _ _ _ h]

theorem GetSyncDuties_hit (s : ethereumService) (slot : Nat) (d : List String)
    (h : s.dutiesCache.Peek slot = some d) :
    s.GetSyncDuties slot = ((d, none), { s with dutiesCache := (s.dutiesCache.Get slot).2 }) := by
  simp [ethereumService.GetSyncDuties, lru.Cache.get_of_peek_some _ _ _ h]

theorem GetBlockReward_ok_peek (s : ethereumService) (slot : Nat) (st rw : String)
    (h : (s.GetBlockReward slot).1 = Outcome.ret (st, rw, none)) :
    (s.GetBlockReward slot).2.rewardCache.Peek slot = some { Status := st, Reward := rw } := by
  cases hp : s.rewardCache.Peek slot with
  | some v =>
    rw [GetBlockReward_hit s slot v hp] at h ⊢
    simp [lru.Cache.get_of_peek_some _ _ _ hp, lru.Cache.Peek, List.lookup] at h ⊢
    obtain ⟨h1, h2⟩ := h
    subst h1 h2
    rfl
  | none =>
    have hget := lru.Cache.get_of_peek_none _ _ hp
    revert h
    simp only [ethereumService.GetBlockReward, hget]
    split
    · simp
    · split
      · simp [blockNotFound]
      · split
        · simp
        · split
          · simp
          · split
            · simp
            · intro h
              simp at h
              simp [lru.Cache.peek_add_self, h]

theorem GetSyncDuties_ok_peek (s : ethereumService) (slot : Nat) (d : List String)
    (h : (s.GetSyncDuties slot).1 = (d, none)) :
    (s.GetSyncDuties slot).2.dutiesCache.Peek slot = some d := by
  cases hp : s.dutiesCache.Peek slot with
  | some v =>
    rw [GetSyncDuties_hit s slot v hp] at h ⊢
    simp [lru.Cache.get_of_peek_some _ _ _ hp, lru.Cache.Peek, List.lookup] at h ⊢
    exact h
  | none =>
    have hget := lru.Cache.get_of_peek_none _ _ hp
    revert h
    simp only [ethereumService.GetSyncDuties, hget]
    split
    · simp
    · split
      · simp [blockNotFound]
      · split
        · simp
        · split
          · simp
          · intro h
            simp at h
            simp [lru.Cache.peek_add_self, h]

theorem GetCurrentSlot_caches (s : ethereumService) :
    (s.GetCurrentSlot).2.rewardCache = s.rewardCache ∧
    (s.GetCurrentSlot).2.dutiesCache = s.dutiesCache := by
  simp only [ethereumService.GetCurrentSlot]
  split
  · simp
  · split
    · simp
    · split <;> simp

theorem GetBlockReward_caches (s : ethereumService) (slot : Nat) :
    (s.GetBlockReward slot).2.dutiesCache = s.dutiesCache ∧
    (rewardOK (s.GetBlockReward slot).1 = true →
      ∃ v, (s.GetBlockReward slot).2.rewardCache = s.rewardCache.Add slot v) ∧
    (rewardOK (s.GetBlockReward slot).1 = false →
      (s.GetBlockReward slot).2.rewardCache = s.rewardCache) := by
  cases hp : s.rewardCache.Peek slot with
  | some v =>
    rw [GetBlockReward_hit s slot v hp]
    exact ⟨rfl, fun _ => ⟨v, lru.Cache.get_hit_eq_add _ _ _ hp⟩, fun h => by simp [rewardOK] at h⟩
  | none =>
    have hget := lru.Cache.get_of_peek_none _ _ hp
    simp only [ethereumService.GetBlockReward, hget]
    split
    · simp [rewardOK]
    · split
      · simp [rewardOK]
      · split
        · simp [rewardOK]
        · split
          · simp [rewardOK]
          · split
            · simp [rewardOK]
            · simp [rewardOK]

theorem GetSyncDuties_caches (s : ethereumService) (slot : Nat) :
    (s.GetSyncDuties slot).2.rewardCache = s.rewardCache ∧
    ((s.GetSyncDuties slot).1.2.isNone = true →
      ∃ v, (s.GetSyncDuties slot).2.dutiesCache = s.dutiesCache.Add slot v) ∧
    ((s.GetSyncDuties slot).1.2.isNone = false →
      (s.GetSyncDuties slot).2.dutiesCache = s.dutiesCache) := by
  cases hp : s.dutiesCache.Peek slot with
  | some v =>
    rw [GetSyncDuties_hit s slot v hp]
    exact ⟨rfl, fun _ => ⟨v, lru.Cache.get_hit_eq_add _ _ _ hp⟩, fun h => by simp at h⟩
  | none =>
    have hget := lru.Cache.get_of_peek_none _ _ hp
    simp only [ethereumService.GetSyncDuties, hget]
    split
    · simp
    · split
      · simp
      · split
        · simp
        · split
          · simp
          · simp

theorem Traced.inv_step (t : Traced) (op : Op) (h : t.Inv) : (t.step op).Inv := by
  obtain ⟨hc1, hc2, ho1, ho2⟩ := h
  cases op with
  | GetCurrentSlot =>
    obtain ⟨h1, h2⟩ := GetCurrentSlot_caches t.s
    simp only [Traced.step, Traced.Inv, h1, h2]
    exact ⟨hc1, hc2, ho1, ho2⟩
  | GetBlockReward slot =>
    obtain ⟨hd, hok, hfail⟩ := GetBlockReward_caches t.s slot
    simp only [Traced.step, Traced.Inv, hd]
    cases hr : rewardOK (t.s.GetBlockReward slot).1 with
    | true =>
      obtain ⟨v, hv⟩ := hok hr
      simp only [hv, lru.Cache.cap_add, ↓reduceIte]
      exact ⟨hc1, hc2, lru.Cache.ordered_add _ _ _ _ (by omega) ho1, ho2⟩
    | false =>
      simp only [hfail hr, Bool.false_eq_true, ↓reduceIte]
      exact ⟨hc1, hc2, ho1, ho2⟩
  | GetSyncDuties slot =>
    obtain ⟨hd, hok, hfail⟩ := GetSyncDuties_caches t.s slot
    simp only [Traced.step, Traced.Inv, hd]
    cases hr : (t.s.GetSyncDuties slot).1.2.isNone with
    | true =>
      obtain ⟨v, hv⟩ := hok hr
      simp only [hv, lru.Cache.cap_add, ↓reduceIte]
      exact ⟨hc1, hc2, ho1, lru.Cache.ordered_add _ _ _ _ (by omega) ho2⟩
    | false =>
      simp only [hfail hr, Bool.false_eq_true, ↓reduceIte]
      exact ⟨hc1, hc2, ho1, ho2⟩

theorem inv_run (beaconClient : beaconclient.Client) (client : EthClient) (ops : List Op) :
    ((NewEthereumService beaconClient client).run ops).Inv := by
  induction ops using List.reverseRecOn with
  | nil =>
    refine ⟨rfl, rfl, ?_, ?_⟩
    · exact lru.Cache.ordered_new 100
    · exact lru.Cache.ordered_new 100
  | append_singleton l a ih =>
    have : (NewEthereumService beaconClient client).run (l ++ [a])
        = ((NewEthereumService beaconClient client).run l).step a := by
      simp [ethereumService.run, List.foldl_append]
    rw [this]
    exact Traced.inv_step _ _ ih

theorem GetBlockReward_miss_calls (s : ethereumService) (slot : Nat)
    (h : s.rewardCache.Peek slot = none) :
    (s.calls ++ [Call.GetBeaconBlockInfo (strconv.Itoa (int slot))])
      <+: (s.GetBlockReward slot).2.calls := by
  have hget := lru.Cache.get_of_peek_none _ _ h
  simp only [ethereumService.GetBlockReward, hget]
  split
  · simp
  · split
    · simp
    · split
      · simp
      · split
        · simp
        · split <;> simp

theorem GetSyncDuties_miss_calls (s : ethereumService) (slot : Nat)
    (h : s.dutiesCache.Peek slot = none) :
    (s.calls ++ [Call.GetBeaconBlockInfo (strconv.Itoa (int slot))])
      <+: (s.GetSyncDuties slot).2.calls := by
  have hget := lru.Cache.get_of_peek_none _ _ h
  simp only [ethereumService.GetSyncDuties, hget]
  split
  · simp
  · split
    · simp
    · split
      · simp
      · split <;> simp

theorem rewardFetches_of_miss (s : ethereumService) (slot : Nat)
    (h : s.rewardCache.Peek slot = none) : RewardFetches s slot := by
  have hget := lru.Cache.get_of_peek_none _ _ h
  refine ⟨GetBlockReward_miss_calls s slot h, ?_, ?_⟩
  · intro blk hb
    simp only [ethereumService.GetBlockReward, hget, hb]
    split
    · simp
    · split
      · simp
      · split <;> simp
  · intro blk info hb hi
    simp only [ethereumService.GetBlockReward, hget, hb, hi]
    split
    · simp
    · split <;> simp

theorem dutiesFetches_of_miss (s : ethereumService) (slot : Nat)
    (h : s.dutiesCache.Peek slot = none) : DutiesFetches s slot := by
  have hget := lru.Cache.get_of_peek_none _ _ h
  refine ⟨GetSyncDuties_miss_calls s slot h, ?_, ?_⟩
  · intro blk hb
    simp only [ethereumService.GetSyncDuties, hget, hb]
    split
    · simp
    · split <;> simp
  · intro blk l hb hl
    simp only [ethereumService.GetSyncDuties, hget, hb, hl]
    split <;> simp

end service

/-! ## Extent of the three defects -/

/-- Below 2^63 the identifier built by `strconv.Itoa(int(slot))` is the decimal
representation of the slot. -/
theorem Itoa_int_eq_FormatUint (slot : Nat) (h : slot < 2 ^ 63) :
    strconv.Itoa (int slot) = strconv.FormatUint slot := by
  have h1 : slot % 2 ^ 64 = slot := Nat.mod_eq_of_lt (by omega)
  have h2 : int slot = (slot : Int) := by
    unfold int
    rw [h1, if_pos h]
  rw [h2]
  unfold strconv.Itoa strconv.FormatUint
  have h3 : ¬ ((slot : Int) < 0) := by omega
  simp [h3]

open service in
/-- With a nil error, `GetCurrentSlot` either parsed the slot field of a
non-nil head block, or the beacon client returned a nil block with a nil error
and the slot is 0. -/
theorem GetCurrentSlot_nil_error (s : ethereumService) (slot : Nat)
    (h : (s.GetCurrentSlot).1 = (slot, none)) :
    (∃ b, s.beaconClient.GetBeaconBlockInfo s.calls "head" = (some b, none) ∧
      strconv.ParseUint b.Data.Message.Slot = (slot, none)) ∨
    (s.beaconClient.GetBeaconBlockInfo s.calls "head" = (none, none) ∧ slot = 0) := by
  revert h
  simp only [ethereumService.GetCurrentSlot]
  split
  · simp
  · rename_i herr
    split
    · rename_i hb
      intro h
      simp at h
      exact Or.inr ⟨Prod.ext hb herr, h.1.symm⟩
    · rename_i b hb
      split
      · simp
      · rename_i hp
        intro h
        simp at h
        refine Or.inl ⟨b, Prod.ext hb herr, ?_⟩
        rw [← h]
        exact Prod.ext rfl hp

open service server in
/-- For a non-negative parsed slot and a current slot below 2^63, the
future-slot check of `APIHandler.GetBlockReward` lets only slots up to the
current slot through to the service. -/
theorem APIHandler_GetBlockReward_guard {σ : Type} (h : APIHandler σ) (st st1 : σ)
    (slotStr : String) (slot : Int) (cur s : Nat)
    (hparse : strconv.Atoi slotStr = (slot, none)) (hnonneg : 0 ≤ slot)
    (hcur : h.ethereumService.GetCurrentSlot st = (Outcome.ret (cur, none), st1))
    (hsmall : cur < 2 ^ 63)
    (hcall : ServiceCall.GetBlockReward s ∈ (h.GetBlockReward st slotStr).2.2) :
    s ≤ cur := by
  have h1 : cur % 2 ^ 64 = cur := Nat.mod_eq_of_lt (by omega)
  have h2 : int cur = (cur : Int) := by
    unfold int
    rw [h1, if_pos hsmall]
  revert hcall
  simp only [APIHandler.GetBlockReward, hparse, hcur, h2]
  by_cases hgt : slot > (cur : Int)
  · simp [hgt]
  · have hle : uint64 slot ≤ cur := by
      unfold uint64
      have : slot % 2 ^ 64 = slot := Int.emod_eq_of_lt hnonneg (by omega)
      rw [this]
      omega
    simp only [hgt, ↓reduceIte]
    split
    · intro hc
      simp at hc
      omega
    · split
      · intro hc
        simp at hc
        omega
      · intro hc
        simp at hc
        omega

/-! ## Theorems -/

open service in
/-- C1: on a reward-cache miss, when the beacon client returns a block summary
and then a reward breakdown with total `T`, and the code query for the block's
fee recipient returns the bytes `c`, all without error, `GetBlockReward`
returns `(status, T, nil)` with status "MEV" for empty `c` and "Vanilla" for
non-empty `c`, and afterwards the reward cache maps the slot to
`{Status: status, Reward: T}`. -/
theorem C1_GetBlockReward_miss_success (s : ethereumService) (slot : Nat)
    (block : beaconclient.BeaconBlockResponse) (info : beaconclient.BlockRewardResponse)
    (c : List Nat)
    (hmiss : s.rewardCache.Contains slot = false)
    (hblock : s.beaconClient.GetBeaconBlockInfo s.calls (strconv.Itoa (int slot))
      = (some block, none))
    (hinfo : s.beaconClient.GetBlockRewardInfo
      (s.calls ++ [Call.GetBeaconBlockInfo (strconv.Itoa (int slot))]) slot = (some info, none))
    (hcode : s.client.CodeAt
      (s.calls ++ [Call.GetBeaconBlockInfo (strconv.Itoa (int slot)), Call.GetBlockRewardInfo slot])
      (s.client.HexToAddress block.Data.Message.Body.ExecutionPayload.FeeRecipient)
      = (c, none)) :
    ∃ status : String,
      (c.length = 0 → status = "MEV") ∧ (c ≠ [] → status = "Vanilla") ∧
      (s.GetBlockReward slot).1 = Outcome.ret (status, info.Data.Total, none) ∧
      (s.GetBlockReward slot).2.rewardCache.Peek slot
        = some { Status := status, Reward := info.Data.Total } := by
  have hget := lru.Cache.get_of_peek_none _ _ (lru.Cache.peek_of_contains_false _ _ hmiss)
  refine ⟨if c.length = 0 then "MEV" else "Vanilla", ?_, ?_, ?_, ?_⟩
  · intro h; simp [h]
  · intro h; simp [h]
  · simp [ethereumService.GetBlockReward, hget, hblock, hinfo, hcode]
  · simp [ethereumService.GetBlockReward, hget, hblock, hinfo, hcode, lru.Cache.peek_add_self]

open service in
/-- Instance of C1: slot 500 against a beacon node holding a block with fee
recipient `0xabc` (no code) and total `320000000000000000`. -/
theorem C1_GetBlockReward_miss_success_witness :
    ∃ status : String,
      (([] : List Nat).length = 0 → status = "MEV") ∧ (([] : List Nat) ≠ [] → status = "Vanilla") ∧
      ((NewEthereumService fixture.beacon fixture.eth).GetBlockReward 500).1
        = Outcome.ret (status, "320000000000000000", none) ∧
      ((NewEthereumService fixture.beacon fixture.eth).GetBlockReward 500).2.rewardCache.Peek 500
        = some { Status := status, Reward := "320000000000000000" } :=
  C1_GetBlockReward_miss_success (NewEthereumService fixture.beacon fixture.eth) 500
    (fixture.block "500" "0xabc") (fixture.rewardInfo "320000000000000000") []
    (by decide) (by decide) (by decide) (by decide)

open service in
/-- C2: when the reward cache (respectively the duties cache) contains the
slot, `GetBlockReward` (respectively `GetSyncDuties`) returns exactly the cached
value with a nil error and records no upstream call; consequently a call made
directly after a successful call for the same slot returns the same result
and records no upstream call. -/
theorem C2_cache_hit_idempotent (s : ethereumService) (slot : Nat) :
    (∀ v : Reward, s.rewardCache.Peek slot = some v →
      (s.GetBlockReward slot).1 = Outcome.ret (v.Status, v.Reward, none) ∧
      (s.GetBlockReward slot).2.calls = s.calls) ∧
    (∀ d : List String, s.dutiesCache.Peek slot = some d →
      (s.GetSyncDuties slot).1 = (d, none) ∧
      (s.GetSyncDuties slot).2.calls = s.calls) ∧
    (∀ st rw : String, (s.GetBlockReward slot).1 = Outcome.ret (st, rw, none) →
      ((s.GetBlockReward slot).2.GetBlockReward slot).1 = Outcome.ret (st, rw, none) ∧
      ((s.GetBlockReward slot).2.GetBlockReward slot).2.calls = (s.GetBlockReward slot).2.calls) ∧
    (∀ d : List String, (s.GetSyncDuties slot).1 = (d, none) →
      ((s.GetSyncDuties slot).2.GetSyncDuties slot).1 = (d, none) ∧
      ((s.GetSyncDuties slot).2.GetSyncDuties slot).2.calls = (s.GetSyncDuties slot).2.calls) := by
  refine ⟨?_, ?_, ?_, ?_⟩
  · intro v h
    rw [GetBlockReward_hit s slot v h]
    exact ⟨rfl, rfl⟩
  · intro d h
    rw [GetSyncDuties_hit s slot d h]
    exact ⟨rfl, rfl⟩
  · intro st rw h
    have hp := GetBlockReward_ok_peek s slot st rw h
    rw [GetBlockReward_hit _ slot _ hp]
    exact ⟨rfl, rfl⟩
  · intro d h
    have hp := GetSyncDuties_ok_peek s slot d h
    rw [GetSyncDuties_hit _ slot _ hp]
    exact ⟨rfl, rfl⟩

open service in
/-- Instance of C2: after a first successful `GetBlockReward 500` the second
call returns the same triple and the call record does not grow. -/
theorem C2_cache_hit_idempotent_witness :
    (((NewEthereumService fixture.beacon fixture.eth).GetBlockReward 500).2.GetBlockReward 500).1
        = Outcome.ret ("MEV", "320000000000000000", none) ∧
      (((NewEthereumService fixture.beacon fixture.eth).GetBlockReward 500).2.GetBlockReward 500).2.calls
        = ((NewEthereumService fixture.beacon fixture.eth).GetBlockReward 500).2.calls :=
  (C2_cache_hit_idempotent (NewEthereumService fixture.beacon fixture.eth) 500).2.2.1
    "MEV" "320000000000000000" (by decide)

open service in
/-- C3: whenever `GetBlockReward` or `GetSyncDuties` returns a non-nil error,
both caches are exactly as before the call.  On a cache miss, a nil block
summary (with nil error) makes the call fail with the error
"block not found for slot <slot>" after that single upstream call, and the
error of a failing upstream call is returned unchanged. -/
theorem C3_errors_leave_caches_unchanged (s : ethereumService) (slot : Nat) :
    (∀ (a b : String) (e : GoError), (s.GetBlockReward slot).1 = Outcome.ret (a, b, some e) →
      (s.GetBlockReward slot).2.rewardCache = s.rewardCache ∧
      (s.GetBlockReward slot).2.dutiesCache = s.dutiesCache) ∧
    (∀ (d : List String) (e : GoError), (s.GetSyncDuties slot).1 = (d, some e) →
      (s.GetSyncDuties slot).2.rewardCache = s.rewardCache ∧
      (s.GetSyncDuties slot).2.dutiesCache = s.dutiesCache) ∧
    (s.rewardCache.Contains slot = false →
      (s.beaconClient.GetBeaconBlockInfo s.calls (strconv.Itoa (int slot)) = (none, none) →
        (s.GetBlockReward slot).1 = Outcome.ret ("", "",
          some (GoError.errorf ("block not found for slot " ++ strconv.FormatUint slot))) ∧
        (s.GetBlockReward slot).2.calls
          = s.calls ++ [Call.GetBeaconBlockInfo (strconv.Itoa (int slot))]) ∧
      (∀ blk e, s.beaconClient.GetBeaconBlockInfo s.calls (strconv.Itoa (int slot))
          = (blk, some e) →
        (s.GetBlockReward slot).1 = Outcome.ret ("", "", some e)) ∧
      (∀ blk info e,
        s.beaconClient.GetBeaconBlockInfo s.calls (strconv.Itoa (int slot)) = (some blk, none) →
        s.beaconClient.GetBlockRewardInfo
          (s.calls ++ [Call.GetBeaconBlockInfo (strconv.Itoa (int slot))]) slot
          = (info, some e) →
        (s.GetBlockReward slot).1 = Outcome.ret ("", "", some e)) ∧
      (∀ blk info c e,
        s.beaconClient.GetBeaconBlockInfo s.calls (strconv.Itoa (int slot)) = (some blk, none) →
        s.beaconClient.GetBlockRewardInfo
          (s.calls ++ [Call.GetBeaconBlockInfo (strconv.Itoa (int slot))]) slot
          = (info, none) →
        s.client.CodeAt
          (s.calls ++ [Call.GetBeaconBlockInfo (strconv.Itoa (int slot)),
            Call.GetBlockRewardInfo slot])
          (s.client.HexToAddress blk.Data.Message.Body.ExecutionPayload.FeeRecipient)
          = (c, some e) →
        (s.GetBlockReward slot).1 = Outcome.ret ("", "", some e))) ∧
    (s.dutiesCache.Contains slot = false →
      (s.beaconClient.GetBeaconBlockInfo s.calls (strconv.Itoa (int slot)) = (none, none) →
        (s.GetSyncDuties slot).1
          = ([], some (GoError.errorf ("block not found for slot " ++ strconv.FormatUint slot))) ∧
        (s.GetSyncDuties slot).2.calls
          = s.calls ++ [Call.GetBeaconBlockInfo (strconv.Itoa (int slot))]) ∧
      (∀ blk e, s.beaconClient.GetBeaconBlockInfo s.calls (strconv.Itoa (int slot))
          = (blk, some e) →
        (s.GetSyncDuties slot).1 = ([], some e)) ∧
      (∀ blk l e,
        s.beaconClient.GetBeaconBlockInfo s.calls (strconv.Itoa (int slot)) = (some blk, none) →
        s.beaconClient.GetSyncCommitteeRewards
          (s.calls ++ [Call.GetBeaconBlockInfo (strconv.Itoa (int slot))]) slot
          = (l, some e) →
        (s.GetSyncDuties slot).1 = ([], some e)) ∧
      (∀ blk l vs e,
        s.beaconClient.GetBeaconBlockInfo s.calls (strconv.Itoa (int slot)) = (some blk, none) →
        s.beaconClient.GetSyncCommitteeRewards
          (s.calls ++ [Call.GetBeaconBlockInfo (strconv.Itoa (int slot))]) slot
          = (l, none) →
        s.beaconClient.GetValidatorsByStatus
          (s.calls ++ [Call.GetBeaconBlockInfo (strconv.Itoa (int slot)),
            Call.GetSyncCommitteeRewards slot])
          slot (l.map (fun r => r.ValidatorIndex)) ["active_ongoing"]
          = (vs, some e) →
        (s.GetSyncDuties slot).1 = ([], some e))) := by
  refine ⟨?_, ?_, ?_, ?_⟩
  · intro a b e
    cases hp : s.rewardCache.Peek slot with
    | some v =>
      rw [GetBlockReward_hit s slot v hp]
      simp
    | none =>
      have hget := lru.Cache.get_of_peek_none _ _ hp
      simp only [ethereumService.GetBlockReward, hget]
      split
      · simp
      · split
        · simp
        · split
          · simp
          · split
            · simp
            · split
              · simp
              · simp
  · intro d e
    cases hp : s.dutiesCache.Peek slot with
    | some v =>
      rw [GetSyncDuties_hit s slot v hp]
      simp
    | none =>
      have hget := lru.Cache.get_of_peek_none _ _ hp
      simp only [ethereumService.GetSyncDuties, hget]
      split
      · simp
      · split
        · simp
        · split
          · simp
          · split
            · simp
            · simp
  · intro hmiss
    have hget := lru.Cache.get_of_peek_none _ _ (lru.Cache.peek_of_contains_false _ _ hmiss)
    refine ⟨?_, ?_, ?_, ?_⟩
    · intro h
      simp [ethereumService.GetBlockReward, hget, h, blockNotFound]
    · intro blk e h
      simp [ethereumService.GetBlockReward, hget, h]
    · intro blk info e h1 h2
      simp [ethereumService.GetBlockReward, hget, h1, h2]
    · intro blk info c e h1 h2 h3
      simp [ethereumService.GetBlockReward, hget, h1, h2, h3]
  · intro hmiss
    have hget := lru.Cache.get_of_peek_none _ _ (lru.Cache.peek_of_contains_false _ _ hmiss)
    refine ⟨?_, ?_, ?_, ?_⟩
    · intro h
      simp [ethereumService.GetSyncDuties, hget, h, blockNotFound]
    · intro blk e h
      simp [ethereumService.GetSyncDuties, hget, h]
    · intro blk l e h1 h2
      simp [ethereumService.GetSyncDuties, hget, h1, h2]
    · intro blk l vs e h1 h2 h3
      simp [ethereumService.GetSyncDuties, hget, h1, h2, h3]

open service in
/-- Instance of C3: against a beacon node without blocks, `GetBlockReward 500`
fails with "block not found for slot 500" after one upstream call and leaves
both caches as they were. -/
theorem C3_errors_leave_caches_unchanged_witness :
    ((NewEthereumService fixture.beaconNoBlock fixture.eth).GetBlockReward 500).1
        = Outcome.ret ("", "", some (GoError.errorf "block not found for slot 500")) ∧
      ((NewEthereumService fixture.beaconNoBlock fixture.eth).GetBlockReward 500).2.calls
        = [Call.GetBeaconBlockInfo "500"] ∧
      ((NewEthereumService fixture.beaconNoBlock fixture.eth).GetBlockReward 500).2.rewardCache
        = (NewEthereumService fixture.beaconNoBlock fixture.eth).rewardCache ∧
      ((NewEthereumService fixture.beaconNoBlock fixture.eth).GetBlockReward 500).2.dutiesCache
        = (NewEthereumService fixture.beaconNoBlock fixture.eth).dutiesCache :=
  have h := C3_errors_leave_caches_unchanged (NewEthereumService fixture.beaconNoBlock fixture.eth) 500
  ⟨((h.2.2.1 (by decide)).1 (by decide)).1, ((h.2.2.1 (by decide)).1 (by decide)).2,
    h.1 "" "" (GoError.errorf "block not found for slot 500") (by decide)⟩

open service in
/-- C4: on a duties-cache miss, when the beacon client returns a block summary
and a sync-committee reward listing `L`, `GetSyncDuties` calls
`GetValidatorsByStatus` with the slot, the validator indices of `L` in the
order of `L` and the single status "active_ongoing"; when that query returns
the validators `V` without error, the result is the list of the public keys
of `V`, in the order and of the length of `V`, with a nil error, and it is
stored in the duties cache under the slot.  A public key is in the roster only
if it belongs to a record of `V`. -/
theorem C4_GetSyncDuties_miss_success (s : ethereumService) (slot : Nat)
    (blk : beaconclient.BeaconBlockResponse) (L : List beaconclient.SyncCommitteeReward)
    (hmiss : s.dutiesCache.Contains slot = false)
    (hblock : s.beaconClient.GetBeaconBlockInfo s.calls (strconv.Itoa (int slot))
      = (some blk, none))
    (hL : s.beaconClient.GetSyncCommitteeRewards
      (s.calls ++ [Call.GetBeaconBlockInfo (strconv.Itoa (int slot))]) slot = (L, none)) :
    (s.GetSyncDuties slot).2.calls
      = s.calls ++ [Call.GetBeaconBlockInfo (strconv.Itoa (int slot)),
          Call.GetSyncCommitteeRewards slot,
          Call.GetValidatorsByStatus slot (L.map (fun r => r.ValidatorIndex)) ["active_ongoing"]] ∧
    (L.map (fun r => r.ValidatorIndex)).length = L.length ∧
    (∀ i (hi : i < L.length),
      (L.map (fun r => r.ValidatorIndex))[i]? = some (L.get ⟨i, hi⟩).ValidatorIndex) ∧
    (∀ V : List beaconclient.Validator,
      s.beaconClient.GetValidatorsByStatus
        (s.calls ++ [Call.GetBeaconBlockInfo (strconv.Itoa (int slot)),
          Call.GetSyncCommitteeRewards slot])
        slot (L.map (fun r => r.ValidatorIndex)) ["active_ongoing"] = (V, none) →
      (s.GetSyncDuties slot).1 = (V.map (fun v => v.ValidatorInformation.PubKey), none) ∧
      (s.GetSyncDuties slot).1.1.length = V.length ∧
      (∀ j (hj : j < V.length),
        (s.GetSyncDuties slot).1.1[j]? = some (V.get ⟨j, hj⟩).ValidatorInformation.PubKey) ∧
      (∀ k, k ∈ (s.GetSyncDuties slot).1.1 ↔ ∃ v ∈ V, v.ValidatorInformation.PubKey = k) ∧
      (s.GetSyncDuties slot).2.dutiesCache.Peek slot
        = some (V.map (fun v => v.ValidatorInformation.PubKey))) := by
  have hget := lru.Cache.get_of_peek_none _ _ (lru.Cache.peek_of_contains_false _ _ hmiss)
  refine ⟨?_, ?_, ?_, ?_⟩
  · simp only [ethereumService.GetSyncDuties, hget, hblock, hL]
    split <;> simp
  · simp
  · intro i hi
    simp [List.getElem?_eq_getElem, hi]
  · intro V hV
    have hres : (s.GetSyncDuties slot).1 = (V.map (fun v => v.ValidatorInformation.PubKey), none) := by
      simp [ethereumService.GetSyncDuties, hget, hblock, hL, hV]
    refine ⟨hres, ?_, ?_, ?_, ?_⟩
    · rw [hres]; simp
    · intro j hj
      rw [hres]
      simp [List.getElem?_eq_getElem, hj]
    · intro k
      rw [hres]
      simp
    · simp [ethereumService.GetSyncDuties, hget, hblock, hL, hV, lru.Cache.peek_add_self]

open service in
/-- Instance of C4: the listing names the indices 5, 7 and 9, the status query
returns the records of 5 and 9, and the roster is their two public keys. -/
theorem C4_GetSyncDuties_miss_success_witness :
    ((NewEthereumService fixture.beacon fixture.eth).GetSyncDuties 500).2.calls
        = [Call.GetBeaconBlockInfo "500", Call.GetSyncCommitteeRewards 500,
            Call.GetValidatorsByStatus 500 ["5", "7", "9"] ["active_ongoing"]] ∧
      ((NewEthereumService fixture.beacon fixture.eth).GetSyncDuties 500).1
        = (["0xaa", "0xcc"], none) :=
  have h := C4_GetSyncDuties_miss_success (NewEthereumService fixture.beacon fixture.eth) 500
    (fixture.block "500" "0xabc") [⟨"5", "10"⟩, ⟨"7", "10"⟩, ⟨"9", "10"⟩]
    (by decide) (by decide) (by decide)
  ⟨h.1, (h.2.2.2 [fixture.validator "5" "0xaa", fixture.validator "9" "0xcc"] (by decide)).1⟩

open service server in
/-- C5 (evaluation at the failing input): with the current slot at 1000, the
path parameter "-1" passes the future-slot check of both handlers, and the
service operation is invoked with slot 18446744073709551615, which is greater
than the current slot; the request is answered with HTTP 200. -/
theorem C5_negative_slot_passes_future_check :
    ((NewEthereumService fixture.beacon fixture.eth).GetCurrentSlot).1 = (1000, none) ∧
    ((NewAPIHandler ethereumService.asInterface).GetBlockReward
        (NewEthereumService fixture.beacon fixture.eth) "-1").2.2
      = [ServiceCall.GetCurrentSlot, ServiceCall.GetBlockReward 18446744073709551615] ∧
    ((NewAPIHandler ethereumService.asInterface).GetBlockReward
        (NewEthereumService fixture.beacon fixture.eth) "-1").1
      = Outcome.ret ⟨200, Body.reward "MEV" "320000000000000000"⟩ ∧
    ((NewAPIHandler ethereumService.asInterface).GetSyncDuties
        (NewEthereumService fixture.beacon fixture.eth) "-1").2.2
      = [ServiceCall.GetCurrentSlot, ServiceCall.GetSyncDuties 18446744073709551615] ∧
    ((NewAPIHandler ethereumService.asInterface).GetSyncDuties
        (NewEthereumService fixture.beacon fixture.eth) "-1").1
      = Outcome.ret ⟨200, Body.validators ["0xaa", "0xcc"]⟩ ∧
    ¬ (18446744073709551615 ≤ 1000) := by
  decide

open service in
/-- C6: both caches are created empty with capacity 100 and hold at most 100
entries after any sequence of service operations.  In every state so reached
and for each cache alike: a cache hit makes the entry the most recently used
one and keeps all entries; a successful resolution of a slot not in the cache
is stored in front of the entries held when there are fewer than 100; when
there are 100, the entry dropped is the last one in recency order, whose last
use (cache hit or insertion) is older than that of every other entry held, all
other entries stay, the other cache is unchanged, and the next call for the
evicted slot performs the upstream fetches of a first resolution again. -/
theorem C6_cache_capacity_and_lru_eviction (beaconClient : beaconclient.Client)
    (client : EthClient) (ops : List Op) (t : Traced)
    (ht : t = (NewEthereumService beaconClient client).run ops) :
    (NewEthereumService beaconClient client).rewardCache.cap = 100 ∧
    (NewEthereumService beaconClient client).dutiesCache.cap = 100 ∧
    (NewEthereumService beaconClient client).rewardCache.Len = 0 ∧
    (NewEthereumService beaconClient client).dutiesCache.Len = 0 ∧
    t.s.rewardCache.Len ≤ 100 ∧ t.s.dutiesCache.Len ≤ 100 ∧
    (∀ (slot : Nat) (v : Reward), t.s.rewardCache.Peek slot = some v →
      (t.s.GetBlockReward slot).2.rewardCache.items
        = (slot, v) :: t.s.rewardCache.items.filter (fun e => e.1 ≠ slot) ∧
      (t.s.GetBlockReward slot).2.dutiesCache = t.s.dutiesCache) ∧
    (∀ (slot : Nat) (d : List String), t.s.dutiesCache.Peek slot = some d →
      (t.s.GetSyncDuties slot).2.dutiesCache.items
        = (slot, d) :: t.s.dutiesCache.items.filter (fun e => e.1 ≠ slot) ∧
      (t.s.GetSyncDuties slot).2.rewardCache = t.s.rewardCache) ∧
    (∀ (slot : Nat) (st rw : String),
      t.s.rewardCache.Contains slot = false → t.s.rewardCache.Len < 100 →
      (t.s.GetBlockReward slot).1 = Outcome.ret (st, rw, none) →
      (t.s.GetBlockReward slot).2.rewardCache.items
        = (slot, { Status := st, Reward := rw }) :: t.s.rewardCache.items ∧
      (t.s.GetBlockReward slot).2.dutiesCache = t.s.dutiesCache) ∧
    (∀ (slot : Nat) (d : List String),
      t.s.dutiesCache.Contains slot = false → t.s.dutiesCache.Len < 100 →
      (t.s.GetSyncDuties slot).1 = (d, none) →
      (t.s.GetSyncDuties slot).2.dutiesCache.items = (slot, d) :: t.s.dutiesCache.items ∧
      (t.s.GetSyncDuties slot).2.rewardCache = t.s.rewardCache) ∧
    (∀ (slot : Nat) (st rw : String),
      t.s.rewardCache.Contains slot = false → t.s.rewardCache.Len = 100 →
      (t.s.GetBlockReward slot).1 = Outcome.ret (st, rw, none) →
      ∃ e, t.s.rewardCache.Keys.getLast? = some e ∧
        (∀ k ∈ t.s.rewardCache.Keys, k ≠ e →
          t.rewardUses.indexOf k < t.rewardUses.indexOf e) ∧
        (t.s.GetBlockReward slot).2.rewardCache.items
          = (slot, { Status := st, Reward := rw }) :: t.s.rewardCache.items.dropLast ∧
        (t.s.GetBlockReward slot).2.rewardCache.Contains e = false ∧
        (∀ k, k ≠ e → k ≠ slot →
          (t.s.GetBlockReward slot).2.rewardCache.Peek k = t.s.rewardCache.Peek k) ∧
        (t.s.GetBlockReward slot).2.dutiesCache = t.s.dutiesCache ∧
        RewardFetches (t.s.GetBlockReward slot).2 e) ∧
    (∀ (slot : Nat) (d : List String),
      t.s.dutiesCache.Contains slot = false → t.s.dutiesCache.Len = 100 →
      (t.s.GetSyncDuties slot).1 = (d, none) →
      ∃ e, t.s.dutiesCache.Keys.getLast? = some e ∧
        (∀ k ∈ t.s.dutiesCache.Keys, k ≠ e →
          t.dutiesUses.indexOf k < t.dutiesUses.indexOf e) ∧
        (t.s.GetSyncDuties slot).2.dutiesCache.items
          = (slot, d) :: t.s.dutiesCache.items.dropLast ∧
        (t.s.GetSyncDuties slot).2.dutiesCache.Contains e = false ∧
        (∀ k, k ≠ e → k ≠ slot →
          (t.s.GetSyncDuties slot).2.dutiesCache.Peek k = t.s.dutiesCache.Peek k) ∧
        (t.s.GetSyncDuties slot).2.rewardCache = t.s.rewardCache ∧
        DutiesFetches (t.s.GetSyncDuties slot).2 e) := by
  have hinv : t.Inv := ht ▸ inv_run beaconClient client ops
  obtain ⟨hc1, hc2, ho1, ho2⟩ := hinv
  refine ⟨rfl, rfl, rfl, rfl, hc1 ▸ ho1.2.2, hc2 ▸ ho2.2.2, ?_, ?_, ?_, ?_, ?_, ?_⟩
  · intro slot v hp
    rw [GetBlockReward_hit t.s slot v hp]
    simp [lru.Cache.get_of_peek_some _ _ _ hp]
  · intro slot d hp
    rw [GetSyncDuties_hit t.s slot d hp]
    simp [lru.Cache.get_of_peek_some _ _ _ hp]
  · intro slot st rw hmiss hlen hres
    have hpeek := lru.Cache.peek_of_contains_false _ _ hmiss
    obtain ⟨hd, hok, -⟩ := GetBlockReward_caches t.s slot
    obtain ⟨v, hv⟩ := hok (by rw [hres]; rfl)
    have hv2 := GetBlockReward_ok_peek t.s slot st rw hres
    rw [hv, lru.Cache.peek_add_self] at hv2
    have hveq : v = { Status := st, Reward := rw } := Option.some.inj hv2
    subst hveq
    refine ⟨?_, hd⟩
    rw [hv]
    exact lru.Cache.add_not_full _ _ _ hpeek (by omega)
  · intro slot d hmiss hlen hres
    have hpeek := lru.Cache.peek_of_contains_false _ _ hmiss
    obtain ⟨hd, hok, -⟩ := GetSyncDuties_caches t.s slot
    obtain ⟨v, hv⟩ := hok (by rw [hres]; rfl)
    have hv2 := GetSyncDuties_ok_peek t.s slot d hres
    rw [hv, lru.Cache.peek_add_self] at hv2
    have hveq : v = d := Option.some.inj hv2
    subst hveq
    refine ⟨?_, hd⟩
    rw [hv]
    exact lru.Cache.add_not_full _ _ _ hpeek (by omega)
  · intro slot st rw hmiss hlen hres
    have hpeek := lru.Cache.peek_of_contains_false _ _ hmiss
    obtain ⟨hd, hok, -⟩ := GetBlockReward_caches t.s slot
    obtain ⟨v, hv⟩ := hok (by rw [hres]; rfl)
    have hv2 := GetBlockReward_ok_peek t.s slot st rw hres
    rw [hv, lru.Cache.peek_add_self] at hv2
    have hveq : v = { Status := st, Reward := rw } := Option.some.inj hv2
    subst hveq
    obtain ⟨e, h1, h2, h3, h4, h5⟩ :=
      lru.Cache.add_full t.s.rewardCache t.rewardUses slot { Status := st, Reward := rw }
        (by omega) ho1 hpeek (by omega)
    refine ⟨e, h1, h2, ?_, ?_, ?_, hd, ?_⟩
    · rw [hv]; exact h3
    · rw [hv]; simp [lru.Cache.Contains, h4]
    · intro k hk1 hk2
      rw [hv]; exact h5 k hk1 hk2
    · apply rewardFetches_of_miss
      rw [hv]; exact h4
  · intro slot d hmiss hlen hres
    have hpeek := lru.Cache.peek_of_contains_false _ _ hmiss
    obtain ⟨hd, hok, -⟩ := GetSyncDuties_caches t.s slot
    obtain ⟨v, hv⟩ := hok (by rw [hres]; rfl)
    have hv2 := GetSyncDuties_ok_peek t.s slot d hres
    rw [hv, lru.Cache.peek_add_self] at hv2
    have hveq : v = d := Option.some.inj hv2
    subst hveq
    obtain ⟨e, h1, h2, h3, h4, h5⟩ :=
      lru.Cache.add_full t.s.dutiesCache t.dutiesUses slot v (by omega) ho2 hpeek (by omega)
    refine ⟨e, h1, h2, ?_, ?_, ?_, hd, ?_⟩
    · rw [hv]; exact h3
    · rw [hv]; simp [lru.Cache.Contains, h4]
    · intro k hk1 hk2
      rw [hv]; exact h5 k hk1 hk2
    · apply dutiesFetches_of_miss
      rw [hv]; exact h4

set_option maxRecDepth 1000000 in
open service in
/-- Instance of C6, for both caches.  On a fresh service the first resolution
of slot 500 is stored as the only entry.  After the rewards and the duties of
the slots 0 to 99 have been resolved both caches hold 100 entries; resolving
slot 100 then evicts slot 0, the least recently used one, which is no longer
held and is fetched again from upstream on its next call. -/
theorem C6_cache_capacity_and_lru_eviction_witness :
    (((NewEthereumService fixture.beacon fixture.eth).run []).s.GetBlockReward 500).2.rewardCache.items
        = (500, { Status := "MEV", Reward := "320000000000000000" })
          :: ((NewEthereumService fixture.beacon fixture.eth).run []).s.rewardCache.items ∧
    (((NewEthereumService fixture.beacon fixture.eth).run []).s.GetSyncDuties 500).2.dutiesCache.items
        = (500, ["0xaa", "0xcc"])
          :: ((NewEthereumService fixture.beacon fixture.eth).run []).s.dutiesCache.items ∧
    ((NewEthereumService fixture.beacon fixture.eth).run fixture.fill).s.rewardCache.Len = 100 ∧
    ((NewEthereumService fixture.beacon fixture.eth).run fixture.fill).s.dutiesCache.Len = 100 ∧
    (∃ e, e = 0 ∧
      ((NewEthereumService fixture.beacon fixture.eth).run fixture.fill).s.rewardCache.Keys.getLast?
        = some e ∧
      (((NewEthereumService fixture.beacon fixture.eth).run fixture.fill).s.GetBlockReward
        100).2.rewardCache.Contains e = false ∧
      RewardFetches (((NewEthereumService fixture.beacon fixture.eth).run
        fixture.fill).s.GetBlockReward 100).2 e) ∧
    (∃ e, e = 0 ∧
      ((NewEthereumService fixture.beacon fixture.eth).run fixture.fill).s.dutiesCache.Keys.getLast?
        = some e ∧
      (((NewEthereumService fixture.beacon fixture.eth).run fixture.fill).s.GetSyncDuties
        100).2.dutiesCache.Contains e = false ∧
      DutiesFetches (((NewEthereumService fixture.beacon fixture.eth).run
        fixture.fill).s.GetSyncDuties 100).2 e) :=
  have h0 := C6_cache_capacity_and_lru_eviction fixture.beacon fixture.eth []
    ((NewEthereumService fixture.beacon fixture.eth).run []) rfl
  have h := C6_cache_capacity_and_lru_eviction fixture.beacon fixture.eth fixture.fill
    ((NewEthereumService fixture.beacon fixture.eth).run fixture.fill) rfl
  ⟨(h0.2.2.2.2.2.2.2.2.1 500 "MEV" "320000000000000000"
      (by decide) (by decide) (by decide)).1,
    (h0.2.2.2.2.2.2.2.2.2.1 500 ["0xaa", "0xcc"] (by decide) (by decide) (by decide)).1,
    by decide, by decide,
    match h.2.2.2.2.2.2.2.2.2.2.1 100 "MEV" "320000000000000000"
      (by decide) (by decide) (by decide) with
    | ⟨e, h1, _, _, h4, _, _, h7⟩ =>
      ⟨e, Option.some.inj (h1.symm.trans (by decide)), h1, h4, h7⟩,
    match h.2.2.2.2.2.2.2.2.2.2.2 100 ["0xaa", "0xcc"]
      (by decide) (by decide) (by decide) with
    | ⟨e, h1, _, _, h4, _, _, h7⟩ =>
      ⟨e, Option.some.inj (h1.symm.trans (by decide)), h1, h4, h7⟩⟩

open service in
/-- C7 (evaluation at the failing input): when the beacon client answers the
request for "head" with a nil block and a nil error, `GetCurrentSlot` returns
slot 0 together with a nil error. -/
theorem C7_GetCurrentSlot_nil_block_nil_error :
    ((NewEthereumService fixture.beaconNoBlock fixture.eth).GetCurrentSlot).2.calls
      = [Call.GetBeaconBlockInfo "head"] ∧
    fixture.beaconNoBlock.GetBeaconBlockInfo [] "head" = (none, none) ∧
    ((NewEthereumService fixture.beaconNoBlock fixture.eth).GetCurrentSlot).1 = (0, none) := by
  decide

open service in
/-- C9 (evaluation at the failing input): for slot 2^63 the identifier passed
to `GetBeaconBlockInfo` is "-9223372036854775808", which is not the base-10
representation "9223372036854775808" of the slot passed to
`GetBlockRewardInfo` and `GetSyncCommitteeRewards`. -/
theorem C9_slot_identifier_wraps_at_2_63 :
    ((NewEthereumService fixture.beacon fixture.eth).GetBlockReward 9223372036854775808).2.calls
      = [Call.GetBeaconBlockInfo "-9223372036854775808",
          Call.GetBlockRewardInfo 9223372036854775808,
          Call.CodeAt (List.replicate 20 0)] ∧
    ((NewEthereumService fixture.beacon fixture.eth).GetSyncDuties 9223372036854775808).2.calls
      = [Call.GetBeaconBlockInfo "-9223372036854775808",
          Call.GetSyncCommitteeRewards 9223372036854775808,
          Call.GetValidatorsByStatus 9223372036854775808 ["5", "7", "9"] ["active_ongoing"]] ∧
    strconv.FormatUint 9223372036854775808 = "9223372036854775808" ∧
    strconv.Itoa (int 9223372036854775808) ≠ strconv.FormatUint 9223372036854775808 := by
  decide

open service in
/-- C8 (counterexample): the fee recipient of slot 500 holds no code, so it is
a plain account and not a contract, yet `GetBlockReward 500` reports "MEV";
hence "MEV exactly when the code query returns non-empty code" fails. -/
theorem C8_polarity_counterexample :
    (fixture.eth.CodeAt [Call.GetBeaconBlockInfo "500", Call.GetBlockRewardInfo 500]
        (fixture.eth.HexToAddress "0xabc")).1 = [] ∧
    ((NewEthereumService fixture.beacon fixture.eth).GetBlockReward 500).1
      = Outcome.ret ("MEV", "320000000000000000", none) ∧
    ¬ (∀ (st rw : String) (c : List Nat),
        ((NewEthereumService fixture.beacon fixture.eth).GetBlockReward 500).1
          = Outcome.ret (st, rw, none) →
        (fixture.eth.CodeAt [Call.GetBeaconBlockInfo "500", Call.GetBlockRewardInfo 500]
          (fixture.eth.HexToAddress "0xabc")).1 = c →
        (st = "MEV" ↔ c ≠ [])) := by
  refine ⟨by decide, by decide, ?_⟩
  intro h
  have h1 := h "MEV" "320000000000000000" [] (by decide) (by decide)
  exact absurd (h1.mp rfl) (by decide)

open service in
/-- C8 (amended): on a reward-cache miss where the block summary, the reward
breakdown and the code query are obtained without error, `GetBlockReward`
reports "MEV" exactly when the code query returns empty code (the fee
recipient is not a contract) and "Vanilla" exactly when it returns non-empty
code (the fee recipient is a contract). -/
theorem C8_status_polarity (s : ethereumService) (slot : Nat)
    (block : beaconclient.BeaconBlockResponse) (info : beaconclient.BlockRewardResponse)
    (c : List Nat)
    (hmiss : s.rewardCache.Contains slot = false)
    (hblock : s.beaconClient.GetBeaconBlockInfo s.calls (strconv.Itoa (int slot))
      = (some block, none))
    (hinfo : s.beaconClient.GetBlockRewardInfo
      (s.calls ++ [Call.GetBeaconBlockInfo (strconv.Itoa (int slot))]) slot = (some info, none))
    (hcode : s.client.CodeAt
      (s.calls ++ [Call.GetBeaconBlockInfo (strconv.Itoa (int slot)), Call.GetBlockRewardInfo slot])
      (s.client.HexToAddress block.Data.Message.Body.ExecutionPayload.FeeRecipient)
      = (c, none)) :
    ∃ (st rw : String), (s.GetBlockReward slot).1 = Outcome.ret (st, rw, none) ∧
      (st = "MEV" ↔ c = []) ∧ (st = "Vanilla" ↔ c ≠ []) := by
  have hget := lru.Cache.get_of_peek_none _ _ (lru.Cache.peek_of_contains_false _ _ hmiss)
  refine ⟨if c.length = 0 then "MEV" else "Vanilla", info.Data.Total, ?_, ?_, ?_⟩
  · simp [ethereumService.GetBlockReward, hget, hblock, hinfo, hcode]
  · by_cases hc : c = []
    · simp [hc]
    · simp [hc]
  · by_cases hc : c = []
    · simp [hc]
    · simp [hc]

open service in
/-- Instance of C8 (amended): a fee recipient holding the code `0x60 0x80`. -/
theorem C8_status_polarity_witness :
    ∃ (st rw : String),
      ((NewEthereumService fixture.beacon fixture.ethContract).GetBlockReward 500).1
        = Outcome.ret (st, rw, none) ∧
      (st = "MEV" ↔ ([96, 128] : List Nat) = []) ∧ (st = "Vanilla" ↔ ([96, 128] : List Nat) ≠ []) :=
  C8_status_polarity (NewEthereumService fixture.beacon fixture.ethContract) 500
    (fixture.block "500" "0xabc") (fixture.rewardInfo "320000000000000000") [96, 128]
    (by decide) (by decide) (by decide) (by decide)

open service beaconclient in
/-- C10: the concrete client's `GetBeaconBlockInfo` returns either a nil block
with a non-nil error (wrapping a request-creation, transport or decode
failure) or a non-nil block with a nil error, never a nil block with a nil
error; the status code of the response plays no part, so a response of any
status whose body decodes yields the decoded block and a nil error.  For the
service composed with this client: on a cache miss `GetBlockReward` and
`GetSyncDuties` either return the client's error after the single block query
or go on to the next upstream query, and `GetCurrentSlot` with a nil error
always stems from a non-nil head block whose slot field parsed. -/
theorem C10_concrete_client_never_nil_nil (http : Http) (baseURL : String) :
    (∀ (calls : List Call) (slot : String),
      (∃ ctx cause, ({ baseURL := baseURL, client := http } : beaconClient).GetBeaconBlockInfo
          calls slot = (none, some (GoError.wrapf ctx cause)) ∧
        (ctx = "error creating request" ∨ ctx = "error sending request"
          ∨ ctx = "error decoding response")) ∨
      (∃ b, ({ baseURL := baseURL, client := http } : beaconClient).GetBeaconBlockInfo
          calls slot = (some b, none))) ∧
    (∀ (calls : List Call) (slot : String),
      (NewBeaconClient http baseURL).GetBeaconBlockInfo calls slot ≠ (none, none)) ∧
    (∀ (calls : List Call) (slot : String) (status : Nat) (body : String)
        (b : BeaconBlockResponse),
      http.NewRequest "GET" (baseURL ++ "/eth/v2/beacon/blocks/" ++ slot) none = none →
      http.Do calls (HttpRequest.mk "GET" (baseURL ++ "/eth/v2/beacon/blocks/" ++ slot) none
          [("Accept", "application/json")])
        = .ok (HttpResponse.mk status body) →
      http.DecodeBeaconBlock body = (b, none) →
      (NewBeaconClient http baseURL).GetBeaconBlockInfo calls slot = (some b, none)) ∧
    (∀ (s : ethereumService) (slot : Nat), s.beaconClient = NewBeaconClient http baseURL →
      s.rewardCache.Contains slot = false →
      (∃ e, s.beaconClient.GetBeaconBlockInfo s.calls (strconv.Itoa (int slot)) = (none, some e) ∧
        s.GetBlockReward slot = (Outcome.ret ("", "", some e),
          { s with calls := s.calls ++ [Call.GetBeaconBlockInfo (strconv.Itoa (int slot))] })) ∨
      (∃ b, s.beaconClient.GetBeaconBlockInfo s.calls (strconv.Itoa (int slot)) = (some b, none) ∧
        (s.calls ++ [Call.GetBeaconBlockInfo (strconv.Itoa (int slot)),
          Call.GetBlockRewardInfo slot]) <+: (s.GetBlockReward slot).2.calls)) ∧
    (∀ (s : ethereumService) (slot : Nat), s.beaconClient = NewBeaconClient http baseURL →
      s.dutiesCache.Contains slot = false →
      (∃ e, s.beaconClient.GetBeaconBlockInfo s.calls (strconv.Itoa (int slot)) = (none, some e) ∧
        s.GetSyncDuties slot = (([], some e),
          { s with calls := s.calls ++ [Call.GetBeaconBlockInfo (strconv.Itoa (int slot))] })) ∨
      (∃ b, s.beaconClient.GetBeaconBlockInfo s.calls (strconv.Itoa (int slot)) = (some b, none) ∧
        (s.calls ++ [Call.GetBeaconBlockInfo (strconv.Itoa (int slot)),
          Call.GetSyncCommitteeRewards slot]) <+: (s.GetSyncDuties slot).2.calls)) ∧
    (∀ (s : ethereumService) (slot : Nat), s.beaconClient = NewBeaconClient http baseURL →
      (s.GetCurrentSlot).1 = (slot, none) →
      ∃ b, s.beaconClient.GetBeaconBlockInfo s.calls "head" = (some b, none) ∧
        strconv.ParseUint b.Data.Message.Slot = (slot, none)) := by
  have key : ∀ (calls : List Call) (slot : String),
      (∃ ctx cause, ({ baseURL := baseURL, client := http } : beaconClient).GetBeaconBlockInfo
          calls slot = (none, some (GoError.wrapf ctx cause)) ∧
        (ctx = "error creating request" ∨ ctx = "error sending request"
          ∨ ctx = "error decoding response")) ∨
      (∃ b, ({ baseURL := baseURL, client := http } : beaconClient).GetBeaconBlockInfo
          calls slot = (some b, none)) := by
    intro calls slot
    simp only [beaconClient.GetBeaconBlockInfo]
    split
    · exact Or.inl ⟨_, _, rfl, Or.inl rfl⟩
    · split
      · exact Or.inl ⟨_, _, rfl, Or.inr (Or.inl rfl)⟩
      · split
        · exact Or.inl ⟨_, _, rfl, Or.inr (Or.inr rfl)⟩
        · exact Or.inr ⟨_, rfl⟩
  have key2 : ∀ (calls : List Call) (slot : String),
      (∃ e, (NewBeaconClient http baseURL).GetBeaconBlockInfo calls slot = (none, some e)) ∨
      (∃ b, (NewBeaconClient http baseURL).GetBeaconBlockInfo calls slot = (some b, none)) := by
    intro calls slot
    rcases key calls slot with ⟨ctx, cause, h, _⟩ | ⟨b, h⟩
    · exact Or.inl ⟨_, h⟩
    · exact Or.inr ⟨_, h⟩
  refine ⟨key, ?_, ?_, ?_, ?_, ?_⟩
  · intro calls slot
    rcases key2 calls slot with ⟨e, h⟩ | ⟨b, h⟩ <;> rw [h] <;> simp
  · intro calls slot status body b h1 h2 h3
    simp [NewBeaconClient, beaconClient.GetBeaconBlockInfo, h1, h2, h3]
  · intro s slot hs hmiss
    have hget := lru.Cache.get_of_peek_none _ _ (lru.Cache.peek_of_contains_false _ _ hmiss)
    rcases key2 s.calls (strconv.Itoa (int slot)) with ⟨e, h⟩ | ⟨b, h⟩
    · rw [← hs] at h
      exact Or.inl ⟨e, h, by simp [ethereumService.GetBlockReward, hget, h]⟩
    · rw [← hs] at h
      refine Or.inr ⟨b, h, ?_⟩
      simp only [ethereumService.GetBlockReward, hget, h]
      split
      · simp
      · split
        · simp
        · split
          · simp
          · simp
  · intro s slot hs hmiss
    have hget := lru.Cache.get_of_peek_none _ _ (lru.Cache.peek_of_contains_false _ _ hmiss)
    rcases key2 s.calls (strconv.Itoa (int slot)) with ⟨e, h⟩ | ⟨b, h⟩
    · rw [← hs] at h
      exact Or.inl ⟨e, h, by simp [ethereumService.GetSyncDuties, hget, h]⟩
    · rw [← hs] at h
      refine Or.inr ⟨b, h, ?_⟩
      simp only [ethereumService.GetSyncDuties, hget, h]
      split
      · simp
      · split
        · simp
        · simp
  · intro s slot hs hres
    rcases key2 s.calls "head" with ⟨e, h⟩ | ⟨b, h⟩
    · rw [← hs] at h
      simp [ethereumService.GetCurrentSlot, h] at hres
    · rw [← hs] at h
      refine ⟨b, h, ?_⟩
      revert hres
      simp only [ethereumService.GetCurrentSlot, h]
      split
      · simp
      · intro hres
        rename_i hnone
        simp at hres
        rw [← hres]
        exact Prod.ext rfl hnone

open service beaconclient in
/-- Instance of C10: a node answering 404 with a JSON error object.  The
client returns the zero-valued block with a nil error, and `GetBlockReward 500`
goes on to query the block reward. -/
theorem C10_concrete_client_never_nil_nil_witness :
    (NewBeaconClient fixture.http404 "http://node").GetBeaconBlockInfo [] "500"
        = (some fixture.zeroBlock, none) ∧
      ((∃ e, (NewEthereumService (NewBeaconClient fixture.http404 "http://node")
            fixture.eth).beaconClient.GetBeaconBlockInfo
            (NewEthereumService (NewBeaconClient fixture.http404 "http://node") fixture.eth).calls
            (strconv.Itoa (int 500)) = (none, some e) ∧
          (NewEthereumService (NewBeaconClient fixture.http404 "http://node")
            fixture.eth).GetBlockReward 500
          = (Outcome.ret ("", "", some e),
              { NewEthereumService (NewBeaconClient fixture.http404 "http://node") fixture.eth with
                calls := (NewEthereumService (NewBeaconClient fixture.http404 "http://node")
                  fixture.eth).calls ++ [Call.GetBeaconBlockInfo (strconv.Itoa (int 500))] })) ∨
        (∃ b, (NewEthereumService (NewBeaconClient fixture.http404 "http://node")
            fixture.eth).beaconClient.GetBeaconBlockInfo
            (NewEthereumService (NewBeaconClient fixture.http404 "http://node") fixture.eth).calls
            (strconv.Itoa (int 500)) = (some b, none) ∧
          ((NewEthereumService (NewBeaconClient fixture.http404 "http://node") fixture.eth).calls
            ++ [Call.GetBeaconBlockInfo (strconv.Itoa (int 500)), Call.GetBlockRewardInfo 500])
          <+: ((NewEthereumService (NewBeaconClient fixture.http404 "http://node")
            fixture.eth).GetBlockReward 500).2.calls)) :=
  have h := C10_concrete_client_never_nil_nil fixture.http404 "http://node"
  ⟨h.2.2.1 [] "500" 404 "\x7b\"code\":404,\"message\":\"NOT_FOUND\"\x7d" fixture.zeroBlock
      (by decide) rfl (by decide),
    h.2.2.2.1 (NewEthereumService (NewBeaconClient fixture.http404 "http://node") fixture.eth) 500
      rfl (by decide)⟩
